import Mathlib

/-!
# Session demultiplexing of the RakNet dissector

A shallow embedding of `CaptureSession.go`, `FileCapture.go` and the relay of
`WinDivertProxy.go`, with the parts of the Go standard library, `gopacket` and
`pcapgo` that they call.

Conventions of the embedding

* A Go byte slice is a `List Nat`; a Go `int` is an `Int` (the frame counter
  cannot leave the range of `int` in a run of fewer than `2 ^ 63` frames);
  `uint` is a `Nat` reduced modulo `2 ^ 64` where the source increments it; a
  `uint16` is a `Nat` reduced modulo `2 ^ 16` where the source converts to it.
* A `*net.UDPAddr` is a `UDPAddr` value: the capture paths only ever build
  addresses with `&net.UDPAddr{...}`, so the nil pointer is not modelled.
* A run-time panic of the Go code is the result `none` of the outer `Option`.
* Objects that the Go code allocates and shares by pointer (protocol contexts,
  packet readers, files) carry a reference number taken from the allocation
  counter `nextRef`, or are addressed by their index in `files`.
* Calls into external collaborators that return nothing to the session
  (`CancelFunc`, `glib.IdleAdd`, `emitter.On`, `ProgressCallback`) are recorded
  in the fields `cancelCalls`, `idleQueue`, `handlers`, `progressReports`.
-/

namespace RaknetDissector

/-! ## Addresses (`net.UDPAddr`, `net.IP`) -/

/-- A `net.UDPAddr`: the IP is a byte slice (length 4 or 16 for real addresses). -/
structure UDPAddr where
  IP : List Nat
  Port : Int
  Zone : String
  deriving DecidableEq, Repr

/-- The 12-byte lead of an IPv4 address in 16-byte form (Go `net`, `v4InV6Prefix`). -/
def v4InV6Lead : List Nat := [0, 0, 0, 0, 0, 0, 0, 0, 0, 0, 0xff, 0xff]

/-- Go `net.IP.Equal`: same length and same bytes, or one is the 4-byte and the
other the 16-byte form of one IPv4 address. -/
def IPEqual (ip x : List Nat) : Bool :=
  if ip.length = x.length then ip == x
  else if ip.length = 4 ∧ x.length = 16 then
    x.take 12 == v4InV6Lead && ip == x.drop 12
  else if ip.length = 16 ∧ x.length = 4 then
    ip.take 12 == v4InV6Lead && ip.drop 12 == x
  else false

/-- The Go `AddressEq` of CaptureSession.go: equal ports and `IP.Equal`. -/
def AddressEq (a b : UDPAddr) : Bool :=
  a.Port == b.Port && IPEqual a.IP b.IP

/-! ## Conversations and the session -/

/-- A `peer.PacketReader` as far as the session configures it. -/
structure PacketReader where
  ref : Nat
  context : Option Nat
  isClient : Bool
  handlersBound : Bool
  deriving DecidableEq, Repr

/-- A reader fresh from `peer.NewPacketReader()`, allocated at `ref`. -/
def NewPacketReader (ref : Nat) : PacketReader :=
  { ref := ref, context := none, isClient := false, handlersBound := false }

def PacketReader.SetContext (r : PacketReader) (ctx : Nat) : PacketReader :=
  { r with context := some ctx }

def PacketReader.SetIsClient (r : PacketReader) (b : Bool) : PacketReader :=
  { r with isClient := b }

def PacketReader.BindDataModelHandlers (r : PacketReader) : PacketReader :=
  { r with handlersBound := true }

/-- The struct `Conversation`; `Context` is the reference of the shared
`peer.CommunicationContext`. -/
structure Conversation where
  Client : UDPAddr
  Server : UDPAddr
  ClientReader : PacketReader
  ServerReader : PacketReader
  Context : Nat
  deriving DecidableEq, Repr

/-- A `PacketListViewer` (consumer handle): its title and the conversation it
is bound to, if any. -/
structure PacketListViewer where
  Title : String
  Conversation : Option Conversation
  deriving DecidableEq, Repr

/-- An `os.File` object: the bytes written through it, whether it is closed,
and how often `Close` was called on it. -/
structure OsFile where
  name : String
  data : List Nat
  closed : Bool
  closeCalls : Nat
  deriving DecidableEq, Repr

/-- A closure handed to `glib.IdleAdd`, as data. -/
inductive IdleTask where
  | newViewer (title : String) (conv : Conversation)
  | reportDone
  deriving DecidableEq, Repr

/-- One `emitter.On("*", handler)` subscription: the reader subscribed to and
whether it is its error source (otherwise its layer source). -/
structure Subscription where
  reader : Nat
  errors : Bool
  deriving DecidableEq, Repr

/-- The struct `CaptureSession` followed by the environment it acts on. -/
structure CaptureSession where
  Name : String
  ViewerCounter : Nat
  IsCapturing : Bool
  Conversations : List Conversation
  InitialViewerOccupied : Bool
  ListViewers : List PacketListViewer
  ProgressCallback : Bool
  progress : Int
  ForgetAcks : Bool
  pcapFile : Option Nat
  pcapWriter : Option Nat
  cancelCalls : Nat
  files : List OsFile
  idleQueue : List IdleTask
  handlers : List Subscription
  progressReports : List Int
  nextRef : Nat
  deriving DecidableEq, Repr

/-- The Go `NewPacketListViewer(title, conv)` on its success path. -/
def NewPacketListViewer (title : String) (conv : Option Conversation) : PacketListViewer :=
  { Title := title, Conversation := conv }

/-- The Go `NewCaptureSession` on its success path (the viewer could be created).
The announcement `listViewerCallback(session, initialViewer, nil)` goes to an
external collaborator and leaves the session as built. -/
def NewCaptureSession (name : String) : CaptureSession :=
  { Name := name
    ViewerCounter := 2
    IsCapturing := true
    Conversations := []
    InitialViewerOccupied := false
    ListViewers := [NewPacketListViewer (name ++ "#" ++ toString 1) none]
    ProgressCallback := false
    progress := 0
    ForgetAcks := false
    pcapFile := none
    pcapWriter := none
    cancelCalls := 0
    files := []
    idleQueue := []
    handlers := []
    progressReports := []
    nextRef := 0 }

def CaptureSession.SetProgress (session : CaptureSession) (prog : Int) : CaptureSession :=
  { session with progress := prog }

/-- The Go `AddConversation`: binds the pre-allocated viewer to the first conversation,
schedules a new viewer for every later one, and subscribes the handler to the
four event sources. `none` is the index panic of `ListViewers[0]`. -/
def CaptureSession.AddConversation (session : CaptureSession) (conv : Conversation) :
    Option (Option PacketListViewer × CaptureSession) :=
  let subs : List Subscription :=
    [ { reader := conv.ClientReader.ref, errors := false },
      { reader := conv.ClientReader.ref, errors := true },
      { reader := conv.ServerReader.ref, errors := false },
      { reader := conv.ServerReader.ref, errors := true } ]
  if !session.InitialViewerOccupied then
    match session.ListViewers with
    | [] => none
    | viewer :: rest =>
      let bound : PacketListViewer := { viewer with Conversation := some conv }
      some (some bound,
        { session with
          InitialViewerOccupied := true
          ListViewers := bound :: rest
          handlers := session.handlers ++ subs })
  else
    let title := session.Name ++ "#" ++ toString session.ViewerCounter
    some (none,
      { session with
        ViewerCounter := (session.ViewerCounter + 1) % 2 ^ 64
        idleQueue := session.idleQueue ++ [IdleTask.newViewer title conv]
        handlers := session.handlers ++ subs })

/-- The `for _, conv := range session.Conversations` loop of `ConversationFor`:
the first conversation whose address pair matches in either orientation. -/
def scanConversations (convs : List Conversation) (source dest : UDPAddr) :
    Option Conversation :=
  match convs with
  | [] => none
  | conv :: rest =>
    if AddressEq source conv.Client && AddressEq dest conv.Server then some conv
    else if AddressEq source conv.Server && AddressEq dest conv.Client then some conv
    else scanConversations rest source dest

/-- Modelled from the spec: `peer.IsOfflineMessage` and the signature bytes
`peer.OfflineMessageID`, which the `peer` package defines outside the files
embedded here: the payload carries the offline-handshake signature immediately
after its first byte (§4.1). -/
def IsOfflineMessage (OfflineMessageID : List Nat) (data : List Nat) : Bool :=
  decide (1 + OfflineMessageID.length ≤ data.length) &&
    (data.drop 1).take OfflineMessageID.length == OfflineMessageID

/-- The Go `ConversationFor`. The classifier `peer.IsOfflineMessage` is the parameter
`isOffline`. The result is the returned conversation (or nil) and the session
after the call. -/
def CaptureSession.ConversationFor (isOffline : List Nat → Bool) (session : CaptureSession)
    (source dest : UDPAddr) (payload : List Nat) :
    Option (Option Conversation × CaptureSession) :=
  match scanConversations session.Conversations source dest with
  | some conv => some (some conv, session)
  | none =>
    if payload.length < 1 || payload.head? != some 0x7B then some (none, session)
    else
      let isHandshake := isOffline payload
      if !isHandshake then some (none, session)
      else
        let newContext := session.nextRef
        let clientR := NewPacketReader (session.nextRef + 1)
        let serverR := NewPacketReader (session.nextRef + 2)
        let clientR := clientR.SetContext newContext
        let serverR := serverR.SetContext newContext
        let clientR := clientR.SetIsClient true
        let clientR := clientR.BindDataModelHandlers
        let serverR := serverR.BindDataModelHandlers
        let newConv : Conversation :=
          { Client := source
            Server := dest
            ClientReader := clientR
            ServerReader := serverR
            Context := newContext }
        let session1 : CaptureSession :=
          { session with
            nextRef := session.nextRef + 3
            Conversations := session.Conversations ++ [newConv] }
        match session1.AddConversation newConv with
        | none => none
        | some (_, session2) => some (some newConv, session2)

/-! ## The capture recorder (`InitPCAPWriter`, `WriteToPCAP`, `ClosePCAPWriter`)

The recorder calls into `os`, `pcapgo` and `gopacket/layers`. Their parts are
modelled after the libraries and the formats they implement (libpcap file
format, Ethernet II, RFC 791, RFC 8200, RFC 2675, RFC 768, RFC 1071). A write
to an open file succeeds; a write to a closed file fails. -/

/-- The Go `binary.BigEndian.PutUint16` of a value below `2 ^ 16`. -/
def be16 (n : Nat) : List Nat := [n / 256 % 256, n % 256]

/-- The Go `binary.BigEndian.PutUint32` of a value below `2 ^ 32`. -/
def be32 (n : Nat) : List Nat :=
  [n / 16777216 % 256, n / 65536 % 256, n / 256 % 256, n % 256]

/-- The Go `binary.LittleEndian.PutUint16`. -/
def le16 (n : Nat) : List Nat := [n % 256, n / 256 % 256]

/-- The Go `binary.LittleEndian.PutUint32`. -/
def le32 (n : Nat) : List Nat :=
  [n % 256, n / 256 % 256, n / 65536 % 256, n / 16777216 % 256]

/-- Go `net.IP.To4`: the 4-byte form of an IPv4 address, or nil. -/
def To4 (ip : List Nat) : Option (List Nat) :=
  if ip.length = 4 then some ip
  else if ip.length = 16 ∧ ip.take 12 = v4InV6Lead then some (ip.drop 12)
  else none

/-- A `time.Time` as the writer uses it: `Unix()` and `Nanosecond()`. -/
structure Time where
  unix : Int
  nanosecond : Nat
  deriving DecidableEq, Repr

/-- The Go `layers.Ethernet` as `WriteToPCAP` fills it. -/
structure Ethernet where
  SrcMAC : List Nat
  DstMAC : List Nat
  EthernetType : Nat
  deriving DecidableEq, Repr

/-- The Go `layers.IPv4` as `WriteToPCAP` fills it (all other fields zero, no options). -/
structure IPv4 where
  Version : Nat
  TTL : Nat
  Protocol : Nat
  SrcIP : List Nat
  DstIP : List Nat
  deriving DecidableEq, Repr

/-- The Go `layers.IPv6` as `WriteToPCAP` fills it (all other fields zero). -/
structure IPv6 where
  Version : Nat
  HopLimit : Nat
  NextHeader : Nat
  SrcIP : List Nat
  DstIP : List Nat
  deriving DecidableEq, Repr

/-- The `gopacket.SerializableLayer` held in `ipLayer`. -/
inductive IPLayer where
  | v4 (ip : IPv4)
  | v6 (ip : IPv6)
  deriving DecidableEq, Repr

/-- The Go `layers.UDP` as `WriteToPCAP` fills it; `pseudoheader` is the layer given to
`SetNetworkLayerForChecksum`. -/
structure UDP where
  SrcPort : Nat
  DstPort : Nat
  pseudoheader : IPLayer
  deriving DecidableEq, Repr

def EthernetTypeIPv4 : Nat := 0x0800

def EthernetTypeIPv6 : Nat := 0x86DD

def IPProtocolUDP : Nat := 17

def IPProtocolIPv6HopByHop : Nat := 0

def LinkTypeEthernet : Nat := 1

/-- The sum of the big-endian 16-bit words of `data`, an odd last byte counted
as the high byte of a word. -/
def wordSum : List Nat → Nat
  | [] => 0
  | [a] => a * 256
  | a :: b :: rest => a * 256 + b + wordSum rest

/-- One round of the carry fold `csum = (csum >> 16) + (csum & 0xffff)`. -/
def foldCarry (csum : Nat) : Nat :=
  if csum > 0xffff then csum / 65536 + csum % 65536 else csum

/-- The Internet checksum of a 32-bit running sum: carries folded (two rounds
end the loop for a 32-bit value), then complemented. -/
def finishChecksum (csum : Nat) : Nat :=
  0xffff - foldCarry (foldCarry (csum % 4294967296))

/-- The Go `layers.IPv4.AddressTo4`: both addresses in 4-byte form, or an error. -/
def IPv4.AddressTo4 (ip : IPv4) : Option (List Nat × List Nat) :=
  match To4 ip.SrcIP, To4 ip.DstIP with
  | some src, some dst => some (src, dst)
  | _, _ => none

/-- The Go `layers.IPv6.AddressTo16`: both addresses must be 16 bytes long. -/
def IPv6.AddressTo16 (ip : IPv6) : Bool :=
  ip.SrcIP.length == 16 && ip.DstIP.length == 16

/-- The Go `pseudoheaderChecksum` of the network layer: the word sum of the two
addresses, or an error (`none`) when the addresses do not fit the layer. -/
def IPLayer.pseudoheaderChecksum : IPLayer → Option Nat
  | IPLayer.v4 ip =>
    match ip.AddressTo4 with
    | some (src, dst) => some (wordSum src + wordSum dst)
    | none => none
  | IPLayer.v6 ip =>
    if ip.AddressTo16 then some (wordSum ip.SrcIP + wordSum ip.DstIP) else none

/-- The Go `layers.UDP.SerializeTo` with `FixLengths` and `ComputeChecksums`: the
8-byte header put in front of the bytes serialized so far. -/
def UDP.SerializeTo (udp : UDP) (b : List Nat) : Option (List Nat) :=
  let jumbo : Bool :=
    match udp.pseudoheader with
    | IPLayer.v6 _ => decide (b.length + 8 > 65535)
    | IPLayer.v4 _ => false
  let length : Nat := if jumbo then 0 else (b.length % 65536 + 8) % 65536
  let header0 : List Nat := be16 udp.SrcPort ++ be16 udp.DstPort ++ be16 length ++ [0, 0]
  match udp.pseudoheader.pseudoheaderChecksum with
  | none => none
  | some pseudo =>
    let total := (header0.length + b.length) % 4294967296
    let csum := finishChecksum
      (pseudo + IPProtocolUDP + total % 65536 + total / 65536 + wordSum (header0 ++ b))
    some (be16 udp.SrcPort ++ be16 udp.DstPort ++ be16 length ++ be16 csum ++ b)

/-- The Go `layers.IPv4.SerializeTo` with `FixLengths` and `ComputeChecksums`: the
20-byte header put in front of the bytes serialized so far. -/
def IPv4.SerializeTo (ip : IPv4) (b : List Nat) : Option (List Nat) :=
  let length : Nat := (20 + b.length) % 65536
  match ip.AddressTo4 with
  | none => none
  | some (src, dst) =>
    let header0 : List Nat :=
      [ip.Version * 16 % 256 + 5, 0] ++ be16 length ++ [0, 0, 0, 0] ++
        [ip.TTL, ip.Protocol] ++ [0, 0] ++ src ++ dst
    let csum := finishChecksum (wordSum header0)
    some ([ip.Version * 16 % 256 + 5, 0] ++ be16 length ++ [0, 0, 0, 0] ++
      [ip.TTL, ip.Protocol] ++ be16 csum ++ src ++ dst ++ b)

/-- The Go `layers.IPv6.SerializeTo` with `FixLengths`: the 40-byte header put in front
of the bytes serialized so far; a payload of more than 65535 bytes is sent as a
jumbogram, with a hop-by-hop header carrying its length in between. -/
def IPv6.SerializeTo (ip : IPv6) (b : List Nat) : Option (List Nat) :=
  if !ip.AddressTo16 then none
  else if b.length > 65535 then
    let hopByHop : List Nat :=
      [ip.NextHeader, 0, 0xC2, 4] ++ be32 ((b.length + 8) % 4294967296)
    some ([ip.Version * 16 % 256, 0, 0, 0] ++ be16 0 ++ [IPProtocolIPv6HopByHop, ip.HopLimit] ++
      ip.SrcIP ++ ip.DstIP ++ hopByHop ++ b)
  else
    some ([ip.Version * 16 % 256, 0, 0, 0] ++ be16 b.length ++ [ip.NextHeader, ip.HopLimit] ++
      ip.SrcIP ++ ip.DstIP ++ b)

def IPLayer.SerializeTo : IPLayer → List Nat → Option (List Nat)
  | IPLayer.v4 ip, b => ip.SerializeTo b
  | IPLayer.v6 ip, b => ip.SerializeTo b

/-- The Go `layers.Ethernet.SerializeTo`: the 14-byte header put in front, and the
frame padded with zeros to 60 bytes. -/
def Ethernet.SerializeTo (eth : Ethernet) (b : List Nat) : Option (List Nat) :=
  if eth.DstMAC.length ≠ 6 then none
  else if eth.SrcMAC.length ≠ 6 then none
  else
    let frame := eth.DstMAC ++ eth.SrcMAC ++ be16 eth.EthernetType ++ b
    some (frame ++ List.replicate (60 - frame.length) 0)

/-- The Go `gopacket.SerializeLayers(buffer, options, eth, ip, udp, Payload(payload))`:
the layers are serialized last to first, each in front of the later ones. -/
def SerializeLayers (eth : Ethernet) (ip : IPLayer) (udp : UDP) (payload : List Nat) :
    Option (List Nat) :=
  match udp.SerializeTo payload with
  | none => none
  | some b1 =>
    match ip.SerializeTo b1 with
    | none => none
    | some b2 => eth.SerializeTo b2

/-- The Go `pcapgo.Writer.WriteFileHeader(snaplen, linktype)`: the 24 bytes of the
global header (microsecond magic number, version 2.4). -/
def fileHeader (snaplen linktype : Nat) : List Nat :=
  le32 0xA1B2C3D4 ++ le16 2 ++ le16 4 ++ [0, 0, 0, 0] ++ [0, 0, 0, 0] ++
    le32 snaplen ++ le32 linktype

/-- The Go `pcapgo.Writer.WritePacket`: the 16-byte record header (seconds,
microseconds, captured length, length) followed by the frame. -/
def packetRecord (now : Time) (data : List Nat) : List Nat :=
  le32 (now.unix % 4294967296).toNat ++ le32 (now.nanosecond / 1000 % 4294967296) ++
    le32 (data.length % 4294967296) ++ le32 (data.length % 4294967296) ++ data

/-- The Go `os.File.Write` through handle `h`: the bytes are appended to an open
file; on a closed file the write fails (`none`). -/
def fileWrite (files : List OsFile) (h : Nat) (bytes : List Nat) : Option (List OsFile) :=
  match files.get? h with
  | none => none
  | some f =>
    if f.closed then none
    else some (files.set h { f with data := f.data ++ bytes })

/-- The Go `os.File.Close` through handle `h`. -/
def fileClose (files : List OsFile) (h : Nat) : List OsFile :=
  match files.get? h with
  | none => files
  | some f => files.set h { f with closed := true, closeCalls := f.closeCalls + 1 }

/-- The Go `InitPCAPWriter`. The environment decides whether `os.Create` and the write
of the file header succeed (`createOk`, `headerOk`). The result is the error,
if any, and the session after the call. -/
def CaptureSession.InitPCAPWriter (createOk headerOk : Bool) (session : CaptureSession)
    (filename : String) : Option String × CaptureSession :=
  if !createOk then (some "failed to create PCAP file", session)
  else
    let file := session.files.length
    let session1 : CaptureSession :=
      { session with
        files := session.files ++ [{ name := filename, data := [], closed := false, closeCalls := 0 }]
        pcapFile := some file
        pcapWriter := some file }
    let written : Option (List OsFile) :=
      if headerOk then fileWrite session1.files file (fileHeader 65536 LinkTypeEthernet)
      else none
    match written with
    | none =>
      (some "failed to write PCAP header",
        { session1 with files := fileClose session1.files file })
    | some files => (none, { session1 with files := files })

/-- The Go `ClosePCAPWriter`. -/
def CaptureSession.ClosePCAPWriter (session : CaptureSession) : CaptureSession :=
  match session.pcapFile with
  | some file =>
    { session with
      files := fileClose session.files file
      pcapFile := none
      pcapWriter := none }
  | none => session

/-- The frame that `WriteToPCAP` builds for one datagram, or `none` when
`gopacket.SerializeLayers` reports an error. -/
def pcapFrame (srcAddr dstAddr : UDPAddr) (payload : List Nat) : Option (List Nat) :=
  let ethLayer : Ethernet :=
    { SrcMAC := [0x00, 0x00, 0x00, 0x00, 0x00, 0x00]
      DstMAC := [0x00, 0x00, 0x00, 0x00, 0x00, 0x01]
      EthernetType := EthernetTypeIPv4 }
  let ipLayer : IPLayer :=
    if (To4 srcAddr.IP).isSome then
      IPLayer.v4
        { Version := 4, TTL := 64, Protocol := IPProtocolUDP
          SrcIP := srcAddr.IP, DstIP := dstAddr.IP }
    else
      IPLayer.v6
        { Version := 6, HopLimit := 64, NextHeader := IPProtocolUDP
          SrcIP := srcAddr.IP, DstIP := dstAddr.IP }
  let ethLayer : Ethernet :=
    if (To4 srcAddr.IP).isSome then ethLayer
    else { ethLayer with EthernetType := EthernetTypeIPv6 }
  let udpLayer : UDP :=
    { SrcPort := (srcAddr.Port % 65536).toNat
      DstPort := (dstAddr.Port % 65536).toNat
      pseudoheader := ipLayer }
  SerializeLayers ethLayer ipLayer udpLayer payload

/-- The address pairs for which the serialization in `WriteToPCAP` succeeds.
The layer is chosen by the source address alone: for an IPv4 source the frame
gets an IPv4 layer, which needs both addresses in IPv4 form (4 bytes, or 16
bytes with the IPv4-in-IPv6 prefix); for any other source it gets an IPv6
layer, which needs both addresses 16 bytes long. -/
def AddressesSerialize (srcAddr dstAddr : UDPAddr) : Prop :=
  ((To4 srcAddr.IP).isSome = true ∧ (To4 dstAddr.IP).isSome = true) ∨
    (To4 srcAddr.IP = none ∧ srcAddr.IP.length = 16 ∧ dstAddr.IP.length = 16)

/-- The Go `WriteToPCAP`, called at time `now`: the error, if any, and the session
after the call. -/
def CaptureSession.WriteToPCAP (now : Time) (session : CaptureSession)
    (srcAddr dstAddr : UDPAddr) (payload : List Nat) : Option String × CaptureSession :=
  match session.pcapWriter with
  | none => (none, session)
  | some writer =>
    match pcapFrame srcAddr dstAddr payload with
    | none => (some "failed to serialize packet", session)
    | some bytes =>
      match fileWrite session.files writer (packetRecord now bytes) with
      | none => (some "write failed", session)
      | some files => (none, { session with files := files })

/-- The Go `WritePacketToPCAP`: best effort, an error of `WriteToPCAP` is only printed. -/
def CaptureSession.WritePacketToPCAP (now : Time) (session : CaptureSession)
    (srcAddr dstAddr : UDPAddr) (payload : List Nat) : CaptureSession :=
  match session.pcapWriter with
  | some _ => (session.WriteToPCAP now srcAddr dstAddr payload).2
  | none => session

/-- The Go `StopCapture`. -/
def CaptureSession.StopCapture (session : CaptureSession) : CaptureSession :=
  if session.IsCapturing then
    let session1 : CaptureSession :=
      { session with IsCapturing := false, cancelCalls := session.cancelCalls + 1 }
    session1.ClosePCAPWriter
  else session

/-- The Go `ReportDone`: the closure is handed to `glib.IdleAdd`. -/
def CaptureSession.ReportDone (session : CaptureSession) : CaptureSession :=
  { session with idleQueue := session.idleQueue ++ [IdleTask.reportDone] }

/-- The closure of an idle task, run by the consumer's main loop. The closure
of `ReportDone` marks the capture finished, reports the progress sentinel -1
if a progress callback is registered, and closes the recorder. The closure of
`AddConversation` creates a viewer and hands it to `ListViewerCallback`, an
external collaborator: it changes none of the fields modelled here. -/
def CaptureSession.runIdleTask (session : CaptureSession) : IdleTask → CaptureSession
  | IdleTask.reportDone =>
    let session1 : CaptureSession :=
      { session with
        IsCapturing := false
        progressReports :=
          if session.ProgressCallback then session.progressReports ++ [-1]
          else session.progressReports }
    session1.ClosePCAPWriter
  | IdleTask.newViewer _ _ => session

/-! ## The capture loop (`FileCapture.go`) -/

/-- The addresses of a decoded `layers.IPv4` or `layers.IPv6`. -/
structure IPHeader where
  SrcIP : List Nat
  DstIP : List Nat
  deriving DecidableEq, Repr

/-- The ports of a decoded `layers.UDP`. -/
structure UDPHeader where
  SrcPort : Nat
  DstPort : Nat
  deriving DecidableEq, Repr

/-- A `gopacket.Packet` as the capture loop looks at it: the payload of its
application layer and its IPv4, IPv6 and UDP layers, each possibly absent. -/
structure Packet where
  ApplicationLayer : Option (List Nat)
  IPv4 : Option IPHeader
  IPv6 : Option IPHeader
  UDP : Option UDPHeader
  deriving DecidableEq, Repr

/-- The Go `SrcAndDestFromGoPacket`; `none` is the panic of the type assertion when
the packet has no UDP layer. -/
def SrcAndDestFromGoPacket (packet : Packet) : Option (UDPAddr × UDPAddr) :=
  let ips : List Nat × List Nat :=
    match packet.IPv4 with
    | some ipv4 => (ipv4.SrcIP, ipv4.DstIP)
    | none =>
      match packet.IPv6 with
      | some ipv6 => (ipv6.SrcIP, ipv6.DstIP)
      | none => ([], [])
  match packet.UDP with
  | none => none
  | some udp =>
    some ({ IP := ips.1, Port := (udp.SrcPort : Int), Zone := "udp" },
      { IP := ips.2, Port := (udp.DstPort : Int), Zone := "udp" })

/-- The Go `peer.RootLayer` as `NewLayers` fills it (its `Logger` stays nil). -/
structure RootLayer where
  Source : UDPAddr
  Destination : UDPAddr
  FromClient : Bool
  FromServer : Bool
  deriving DecidableEq, Repr

/-- The Go `peer.PacketLayers` as `NewLayers` fills it. -/
structure PacketLayers where
  Root : RootLayer
  deriving DecidableEq, Repr

def NewLayers (source dest : UDPAddr) (fromClient : Bool) : PacketLayers :=
  { Root :=
      { Source := source
        Destination := dest
        FromClient := fromClient
        FromServer := !fromClient } }

/-- A call that one iteration of the capture loop makes. -/
inductive Call where
  | WritePacketToPCAP (src dst : UDPAddr) (payload : List Nat)
  | ReadPacket (reader : PacketReader) (payload : List Nat) (layers : PacketLayers)
  | SetProgress (prog : Int)
  deriving DecidableEq, Repr

/-- The state of a running `CaptureFromSource`: the session it feeds, its local
`progress` counter, and for every frame received so far the calls made while
handling it. -/
structure Capture where
  session : CaptureSession
  progress : Int
  log : List (List Call)
  deriving DecidableEq, Repr

/-- The body of the `case packet, ok := <-packetChan` branch for one frame,
received at time `now`. `none` is a panic. -/
def captureFrame (isOffline : List Nat → Bool) (st : Capture) (packet : Packet) (now : Time) :
    Option Capture :=
  let progress := st.progress + 1
  if packet.ApplicationLayer.isNone ||
      (packet.IPv4.isNone && packet.IPv6.isNone) ||
      packet.UDP.isNone then
    some { st with progress := progress, log := st.log ++ [[]] }
  else
    let payload := packet.ApplicationLayer.getD []
    if payload.length = 0 then
      some { st with progress := progress, log := st.log ++ [[]] }
    else
      match SrcAndDestFromGoPacket packet with
      | none => none
      | some (src, dest) =>
        match st.session.ConversationFor isOffline src dest payload with
        | none => none
        | some (none, session1) =>
          some { session := session1, progress := progress, log := st.log ++ [[]] }
        | some (some conv, session1) =>
          let fromClient := AddressEq src conv.Client
          let session2 := session1.WritePacketToPCAP now src dest payload
          let layers := NewLayers src dest fromClient
          let reader := if fromClient then conv.ClientReader else conv.ServerReader
          let session3 := session2.SetProgress progress
          some
            { session := session3
              progress := progress
              log := st.log ++
                [[Call.WritePacketToPCAP src dest payload,
                  Call.ReadPacket reader payload layers,
                  Call.SetProgress progress]] }

/-- What one `select` of the capture loop receives: the cancellation signal, or
a frame (with the time at which it is handled). The end of the list is the
closed packet channel. -/
inductive Received where
  | done
  | frame (packet : Packet) (now : Time)
  deriving DecidableEq, Repr

/-- The `for { select { ... } }` loop of `CaptureFromSource`. -/
def captureLoop (isOffline : List Nat → Bool) (st : Capture) : List Received → Option Capture
  | [] => some st
  | Received.done :: _ => some st
  | Received.frame packet now :: rest =>
    match captureFrame isOffline st packet now with
    | none => none
    | some st1 => captureLoop isOffline st1 rest

/-- The Go `CaptureFromSource(ctx, convs, packetSource)` for a `*CaptureSession`. -/
def CaptureFromSource (isOffline : List Nat → Bool) (convs : CaptureSession)
    (received : List Received) : Option Capture :=
  captureLoop isOffline { session := convs, progress := 0, log := [] } received

/-- The test of one iteration of the scan loop: `conv` matches the pair
`(source, dest)` in one of the two orientations. -/
def matchesPair (conv : Conversation) (source dest : UDPAddr) : Bool :=
  (AddressEq source conv.Client && AddressEq dest conv.Server) ||
    (AddressEq source conv.Server && AddressEq dest conv.Client)

/-- Session states reachable from an empty session (one whose conversation
list is empty, such as a new session) by `ConversationFor` calls. -/
inductive Reachable (isOffline : List Nat → Bool) : CaptureSession → Prop where
  | empty (s : CaptureSession) : s.Conversations = [] → Reachable isOffline s
  | call (s s1 : CaptureSession) (source dest : UDPAddr) (payload : List Nat)
      (r : Option Conversation) :
      Reachable isOffline s →
      s.ConversationFor isOffline source dest payload = some (r, s1) →
      Reachable isOffline s1

/-- The RakNet offline message ID, used for the concrete examples only. -/
def sampleOfflineMessageID : List Nat :=
  [0x00, 0xFF, 0xFF, 0x00, 0xFE, 0xFE, 0xFE, 0xFE, 0xFD, 0xFD, 0xFD, 0xFD, 0x12, 0x34, 0x56, 0x78]

/-- Address A:1000 of the examples. -/
def addrA : UDPAddr := { IP := [10, 0, 0, 1], Port := 1000, Zone := "udp" }

/-- Address B:2000 of the examples. -/
def addrB : UDPAddr := { IP := [10, 0, 0, 2], Port := 2000, Zone := "udp" }

/-- A session-opening payload: marker byte, signature, one more byte. -/
def samplePayload : List Nat := 0x7B :: (sampleOfflineMessageID ++ [0x00])

/-- The conversation that the first handshake A:1000 -> B:2000 creates. -/
def convAB : Conversation :=
  { Client := addrA
    Server := addrB
    ClientReader := { ref := 1, context := some 0, isClient := true, handlersBound := true }
    ServerReader := { ref := 2, context := some 0, isClient := false, handlersBound := true }
    Context := 0 }

/-- The session "cap" after the handshake A:1000 -> B:2000. -/
def sessionAB : CaptureSession :=
  { NewCaptureSession "cap" with
    Conversations := [convAB]
    InitialViewerOccupied := true
    ListViewers := [{ Title := "cap#1", Conversation := some convAB }]
    handlers := [⟨1, false⟩, ⟨1, true⟩, ⟨2, false⟩, ⟨2, true⟩]
    nextRef := 3 }

/-- No two entries of the list have the same unordered address pair. -/
def PairwiseDistinct (convs : List Conversation) : Prop :=
  convs.Pairwise (fun a b => matchesPair b a.Client a.Server = false)

/-- The conversation that `ConversationFor` builds for a session-opening datagram. -/
def newConversation (s : CaptureSession) (source dest : UDPAddr) : Conversation :=
  { Client := source
    Server := dest
    ClientReader :=
      { ref := s.nextRef + 1, context := some s.nextRef, isClient := true, handlersBound := true }
    ServerReader :=
      { ref := s.nextRef + 2, context := some s.nextRef, isClient := false, handlersBound := true }
    Context := s.nextRef }

/-- Address C:3000 of the examples. -/
def addrC : UDPAddr := { IP := [10, 0, 0, 3], Port := 3000, Zone := "udp" }

/-- The conversation that a second handshake C:3000 -> B:2000 creates. -/
def convCB : Conversation :=
  { Client := addrC
    Server := addrB
    ClientReader := { ref := 4, context := some 3, isClient := true, handlersBound := true }
    ServerReader := { ref := 5, context := some 3, isClient := false, handlersBound := true }
    Context := 3 }

/-- The session "cap" after the handshakes A:1000 -> B:2000 and C:3000 -> B:2000. -/
def sessionABC : CaptureSession :=
  { sessionAB with
    ViewerCounter := 3
    Conversations := [convAB, convCB]
    idleQueue := [IdleTask.newViewer "cap#2" convCB]
    handlers := [⟨1, false⟩, ⟨1, true⟩, ⟨2, false⟩, ⟨2, true⟩,
      ⟨4, false⟩, ⟨4, true⟩, ⟨5, false⟩, ⟨5, true⟩]
    nextRef := 6 }

/-- Consistency of the handle bookkeeping: the pre-allocated viewer exists, and
it is unoccupied exactly as long as the conversation list is empty. -/
def HandleConsistent (s : CaptureSession) : Prop :=
  s.ListViewers ≠ [] ∧ (s.InitialViewerOccupied = false ↔ s.Conversations = [])

/-- The session can take a new conversation without the index panic of
`ListViewers[0]`: while the pre-allocated viewer is unoccupied, it exists. -/
def ViewerReady (s : CaptureSession) : Prop :=
  s.InitialViewerOccupied = false → s.ListViewers ≠ []

/-- The frame of a UDP datagram over IPv4 as the packet source decodes it. -/
def udpFrame (src dst : UDPAddr) (payload : List Nat) : Packet :=
  { ApplicationLayer := if payload = [] then none else some payload
    IPv4 := some { SrcIP := src.IP, DstIP := dst.IP }
    IPv6 := none
    UDP := some { SrcPort := src.Port.toNat, DstPort := dst.Port.toNat } }

/-- The time of the examples. -/
def sampleTime : Time := { unix := 1700000000, nanosecond := 250000000 }

/-- The session "cap" with a recorder opened on "out.pcap". -/
def sessionRec : CaptureSession :=
  ((NewCaptureSession "cap").InitPCAPWriter true true "out.pcap").2

/-- The session "cap" after its capture reported done and the idle closure ran. -/
def sessionDone : CaptureSession :=
  (NewCaptureSession "cap").runIdleTask IdleTask.reportDone

/-- The endpoint [::ffff:10.0.0.1]:1000: an IPv4 address in 16-byte form. -/
def addrMapped : UDPAddr := { IP := v4InV6Lead ++ [10, 0, 0, 1], Port := 1000, Zone := "udp" }

/-- The endpoint [2001::2]:2000. -/
def addrV6 : UDPAddr :=
  { IP := [0x20, 0x01, 0, 0, 0, 0, 0, 0, 0, 0, 0, 0, 0, 0, 0, 2], Port := 2000, Zone := "udp" }

/-- The frame of the handshake [::ffff:10.0.0.1]:1000 -> [2001::2]:2000 over
IPv6 as the packet source decodes it. -/
def mixedFamilyFrame : Packet :=
  { ApplicationLayer := some samplePayload
    IPv4 := none
    IPv6 := some { SrcIP := addrMapped.IP, DstIP := addrV6.IP }
    UDP := some { SrcPort := 1000, DstPort := 2000 } }

/-- The session "cap" after an `InitPCAPWriter` whose header write failed. -/
def sessionHeaderFailed : CaptureSession :=
  ((NewCaptureSession "cap").InitPCAPWriter true false "out.pcap").2

/-- Three frames of the examples: a datagram of an unknown pair that is no
handshake (dropped), a frame without application payload (discarded), and the
handshake A:1000 -> B:2000 (routed). -/
def sampleFrames : List (Packet × Time) :=
  [ (udpFrame addrC addrB [0x01, 0x02, 0x03], sampleTime),
    (udpFrame addrA addrB [], sampleTime),
    (udpFrame addrA addrB samplePayload, sampleTime) ]

/-! ## Reading a capture file back

The repository has no reader of its own: a capture is replayed through the
packet source of the capture loop (`gopacket`), which hands `CaptureFromSource`
decoded packets. The definitions below parse the container and the frame
layout that the spec describes (§4.4, §6), the way the packet source does. -/

/-- A datagram handed to the recorder: the time of the call, the addresses and
the payload. -/
structure Datagram where
  now : Time
  src : UDPAddr
  dst : UDPAddr
  payload : List Nat
  deriving DecidableEq, Repr

/-- The `peer.ProxyWriter` as far as the relay uses it: the addresses of the two
real endpoints. -/
structure ProxyWriter where
  ClientAddr : UDPAddr
  ServerAddr : UDPAddr
  deriving DecidableEq, Repr

/-- One call `divertConnection.SendUDP(p, a, b, flag, ifIdx, subIfIdx)`. The
library `windivert-go` builds the injected packet from its arguments: the
payload, then the source and the destination address of the packet ("packet
construction", spec §4.5), the direction flag and the interface indices. -/
structure SendUDPCall where
  payload : List Nat
  src : UDPAddr
  dst : UDPAddr
  outbound : Bool
  ifIdx : Nat
  subIfIdx : Nat
  deriving DecidableEq, Repr

/-- The struct `ProxiedPacket`. -/
structure ProxiedPacket where
  Payload : List Nat
  Layers : PacketLayers
  deriving DecidableEq, Repr

/-- A call into one of the two relay halves. -/
inductive ProxyCall where
  | ProxyClient (payload : List Nat) (layers : PacketLayers)
  | ProxyServer (payload : List Nat) (layers : PacketLayers)
  deriving DecidableEq, Repr

/-- The state of a running `CaptureWithDivertedPacket`: the proxy writer, the
interface indices of the most recent receive, the packet channel, whether the
producer goroutine still runs, whether the function has returned (and its
deferred `divertConnection.Close()` has run), and the calls made so far:
`SendUDP` injections, `WritePacketToPCAP` recordings, and calls into the
halves. -/
structure DivertRelay where
  proxyWriter : ProxyWriter
  ifIdx : Nat
  subIfIdx : Nat
  packetChan : List ProxiedPacket
  producerRunning : Bool
  returned : Bool
  sent : List SendUDPCall
  recorded : List Datagram
  proxied : List ProxyCall
  deriving DecidableEq, Repr

/-- What happens to a running relay: a half emits a datagram on its output; the
producer receives a datagram from the OS filter (or fails to); the consumer
loop takes the next packet from the channel; the cancellation signal fires. -/
inductive RelayEvent where
  | clientOutput (p : List Nat)
  | serverOutput (p : List Nat)
  | recv (ifIdx subIfIdx : Nat) (src dst : UDPAddr) (udpPayload : List Nat) (now : Time)
  | recvFail
  | pop
  | done
  deriving DecidableEq, Repr

/-- The handler on `proxyWriter.ClientHalf.Output` ("writes TO client"). -/
def clientHalfOutput (r : DivertRelay) (p : List Nat) : DivertRelay :=
  { r with
    sent := r.sent ++
      [{ payload := p
         src := r.proxyWriter.ServerAddr
         dst := r.proxyWriter.ClientAddr
         outbound := false
         ifIdx := r.ifIdx
         subIfIdx := r.subIfIdx }] }

/-- The handler on `proxyWriter.ServerHalf.Output` ("writes TO server"). -/
def serverHalfOutput (r : DivertRelay) (p : List Nat) : DivertRelay :=
  { r with
    sent := r.sent ++
      [{ payload := p
         src := r.proxyWriter.ClientAddr
         dst := r.proxyWriter.ServerAddr
         outbound := true
         ifIdx := r.ifIdx
         subIfIdx := r.subIfIdx }] }

/-- One iteration of the producer goroutine after a successful `Recv` and
`ExtractUDP`: the interface indices are taken over, the direction is derived
from the address strings (`addrString` is Go's `net.UDPAddr.String`), the
datagram is recorded and put on the channel (a full channel only delays the
send). -/
def producerReceive (addrString : UDPAddr → String) (r : DivertRelay)
    (ifIdx subIfIdx : Nat) (src dst : UDPAddr) (udpPayload : List Nat) (now : Time) :
    DivertRelay :=
  let layers : PacketLayers :=
    { Root :=
        { Source := src
          Destination := dst
          FromClient := addrString r.proxyWriter.ClientAddr == addrString src
          FromServer := addrString r.proxyWriter.ServerAddr == addrString src } }
  { r with
    ifIdx := ifIdx
    subIfIdx := subIfIdx
    recorded := r.recorded ++ [{ now := now, src := src, dst := dst, payload := udpPayload }]
    packetChan := r.packetChan ++ [{ Payload := udpPayload, Layers := layers }] }

/-- One iteration of the consumer loop: the next packet of the channel goes to
the client half when it is tagged FromClient, else to the server half. -/
def consumerPop (r : DivertRelay) : DivertRelay :=
  match r.packetChan with
  | [] => r
  | newPacket :: rest =>
    if newPacket.Layers.Root.FromClient then
      { r with
        packetChan := rest
        proxied := r.proxied ++ [ProxyCall.ProxyClient newPacket.Payload newPacket.Layers] }
    else
      { r with
        packetChan := rest
        proxied := r.proxied ++ [ProxyCall.ProxyServer newPacket.Payload newPacket.Layers] }

/-- The reaction of a running relay to one event. -/
def relayStep (addrString : UDPAddr → String) (r : DivertRelay) : RelayEvent → DivertRelay
  | RelayEvent.clientOutput p => clientHalfOutput r p
  | RelayEvent.serverOutput p => serverHalfOutput r p
  | RelayEvent.recv ifIdx subIfIdx src dst udpPayload now =>
    if r.producerRunning then producerReceive addrString r ifIdx subIfIdx src dst udpPayload now
    else r
  | RelayEvent.recvFail => { r with producerRunning := false }
  | RelayEvent.pop => consumerPop r
  | RelayEvent.done => { r with returned := true }

/-- The relay until the cancellation signal: events are handled in order, and
`done` makes `CaptureWithDivertedPacket` return. -/
def relayRun (addrString : UDPAddr → String) (r : DivertRelay) : List RelayEvent → DivertRelay
  | [] => r
  | RelayEvent.done :: _ => relayStep addrString r RelayEvent.done
  | e :: rest => relayRun addrString (relayStep addrString r e) rest

/-- The relay as `CaptureWithDivertedPacket` sets it up before its loops start:
the proxy writer with the two addresses, the handlers on the outputs of the
halves, and the first datagram handed to the client half. -/
def startRelay (clientAddr serverAddr : UDPAddr) (payload : List Nat) (ifIdx subIfIdx : Nat) :
    DivertRelay :=
  { proxyWriter := { ClientAddr := clientAddr, ServerAddr := serverAddr }
    ifIdx := ifIdx
    subIfIdx := subIfIdx
    packetChan := []
    producerRunning := true
    returned := false
    sent := []
    recorded := []
    proxied :=
      [ProxyCall.ProxyClient payload
        { Root :=
            { Source := clientAddr
              Destination := serverAddr
              FromClient := true
              FromServer := false } }] }

/-- The Go `CaptureWithDivertedPacket`, run on the events of its lifetime; `none`
is the error return when `windivert.Open` fails (`openOk` false). The
registration of the two relay conversations with the viewers of the session is
left out. -/
def CaptureWithDivertedPacket (addrString : UDPAddr → String) (openOk : Bool)
    (clientAddr serverAddr : UDPAddr) (payload : List Nat) (ifIdx subIfIdx : Nat)
    (events : List RelayEvent) : Option DivertRelay :=
  if openOk then
    some (relayRun addrString (startRelay clientAddr serverAddr payload ifIdx subIfIdx) events)
  else none

/-- The datagrams that the halves emit while the relay runs, in order: the
flag tells whether the client half emitted it. -/
def emissions : List RelayEvent → List (Bool × List Nat)
  | [] => []
  | RelayEvent.done :: _ => []
  | RelayEvent.clientOutput p :: rest => (true, p) :: emissions rest
  | RelayEvent.serverOutput p :: rest => (false, p) :: emissions rest
  | _ :: rest => emissions rest

/-! ## The filter expression of session discovery -/

/-- The upper-case hexadecimal digit of a value below 16. -/
def hexDigit (n : Nat) : Char :=
  ['0', '1', '2', '3', '4', '5', '6', '7', '8', '9', 'A', 'B', 'C', 'D', 'E', 'F'].getD n '0'

/-- Go `fmt.Sprintf("%02X", b)` of a byte: two upper-case hexadecimal digits. -/
def hex2 (b : Nat) : String :=
  String.mk [hexDigit (b / 16 % 16), hexDigit (b % 16)]

/-- The `for i := 0; i < len(bytes); i++` loop of `genPayloadFilter`, at index
`i` with the bytes from `i` on still to write. -/
def genPayloadFilterLoop (offset : Int) : Nat → List Nat → String → String
  | _, [], build => build
  | i, b :: rest, build =>
    genPayloadFilterLoop offset (i + 1) rest
      (build ++ (" and udp.Payload[" ++ toString ((i : Int) + offset) ++ "] == 0x" ++ hex2 b))

/-- The Go `genPayloadFilter`. -/
def genPayloadFilter (offset : Int) (bytes : List Nat) : String :=
  genPayloadFilterLoop offset 0 bytes
    ("udp.PayloadLength >= " ++ toString (offset + (bytes.length : Int)))

/-- The filter that `CaptureFromDivert` opens the OS interceptor with; the
signature bytes `peer.OfflineMessageID` are a parameter. -/
def discoveryFilter (OfflineMessageID : List Nat) : String :=
  genPayloadFilter 0 (0x7B :: OfflineMessageID)

/-- A term of a filter expression of the OS interceptor (WinDivert filter
language): a bound on the length of the UDP payload, or the value of the
payload byte at an index. -/
inductive FilterTerm where
  | payloadLengthGE (n : Int)
  | payloadByteEq (index : Int) (value : Nat)
  deriving DecidableEq, Repr

/-- The text of a term. -/
def FilterTerm.render : FilterTerm → String
  | FilterTerm.payloadLengthGE n => "udp.PayloadLength >= " ++ toString n
  | FilterTerm.payloadByteEq index value =>
    "udp.Payload[" ++ toString index ++ "] == 0x" ++ hex2 value

/-- Whether a UDP payload satisfies a term: `udp.PayloadLength` is its length,
`udp.Payload[i]` its byte at index `i` (no byte, no match). -/
def FilterTerm.holds (payload : List Nat) : FilterTerm → Bool
  | FilterTerm.payloadLengthGE n => decide (n ≤ (payload.length : Int))
  | FilterTerm.payloadByteEq index value =>
    decide (0 ≤ index) && payload.get? index.toNat == some value

/-- The text of the conjunction of terms: the terms joined by " and ". -/
def conjunction (terms : List FilterTerm) : String :=
  " and ".intercalate (terms.map FilterTerm.render)

/-- Whether a UDP payload satisfies the conjunction of terms. -/
def satisfies (payload : List Nat) (terms : List FilterTerm) : Bool :=
  terms.all (FilterTerm.holds payload)

/-- The terms that the claim about `genPayloadFilter` lists: the length bound
`offset + N`, then for `i = 0 .. N - 1` the byte test at `offset + i`. -/
def payloadFilterTerms (offset : Int) (bytes : List Nat) : List FilterTerm :=
  FilterTerm.payloadLengthGE (offset + (bytes.length : Int)) ::
    (List.range bytes.length).map
      (fun (i : Nat) => FilterTerm.payloadByteEq (offset + (i : Int)) (bytes.getD i 0))

/-! ## Sequences of recorder and teardown calls -/

/-- A call on the session, or the main loop running the oldest idle closure. -/
inductive SessionOp where
  | InitPCAPWriter (createOk headerOk : Bool) (filename : String)
  | WritePacketToPCAP (now : Time) (src dst : UDPAddr) (payload : List Nat)
  | ClosePCAPWriter
  | StopCapture
  | ReportDone
  | runIdle
  deriving DecidableEq, Repr

/-- The session after one call. -/
def CaptureSession.applyOp (session : CaptureSession) : SessionOp → CaptureSession
  | SessionOp.InitPCAPWriter createOk headerOk filename =>
    (session.InitPCAPWriter createOk headerOk filename).2
  | SessionOp.WritePacketToPCAP now src dst payload =>
    session.WritePacketToPCAP now src dst payload
  | SessionOp.ClosePCAPWriter => session.ClosePCAPWriter
  | SessionOp.StopCapture => session.StopCapture
  | SessionOp.ReportDone => session.ReportDone
  | SessionOp.runIdle =>
    match session.idleQueue with
    | [] => session
    | task :: rest => ({ session with idleQueue := rest } : CaptureSession).runIdleTask task

/-- The session after a sequence of calls. -/
def CaptureSession.applyOps (session : CaptureSession) (ops : List SessionOp) : CaptureSession :=
  ops.foldl CaptureSession.applyOp session

/-- No call of the sequence is an `InitPCAPWriter` whose header write fails. -/
def NoHeaderFailure (ops : List SessionOp) : Prop :=
  ∀ filename : String, SessionOp.InitPCAPWriter true false filename ∉ ops

/-- The bookkeeping of capture files is sound: a file held by the session is
within `files`, open and never closed, and no file was closed more than once. -/
def FilesSound (s : CaptureSession) : Prop :=
  (∀ (i : Nat) (f : OsFile), s.files.get? i = some f →
      f.closeCalls ≤ 1 ∧ (s.pcapFile = some i → f.closed = false ∧ f.closeCalls = 0)) ∧
    (∀ i : Nat, s.pcapFile = some i → i < s.files.length)

/-- The terms of the byte tests from index `i` on, for the bytes still to
write: the recursion behind `payloadFilterTerms`. -/
def byteTerms (offset : Int) : Nat → List Nat → List FilterTerm
  | _, [] => []
  | i, b :: rest => FilterTerm.payloadByteEq (offset + (i : Int)) b :: byteTerms offset (i + 1) rest

/-- The text of terms, each one led by " and ". -/
def joinAnd : List String → String
  | [] => ""
  | t :: rest => " and " ++ t ++ joinAnd rest

/-! # Theorems -/

/-! ## Address equality -/

theorem IPEqual_refl (ip : List Nat) : IPEqual ip ip = true := by
  unfold IPEqual
  rw [if_pos rfl]
  exact beq_self_eq_true ip

theorem IPEqual_symm (a b : List Nat) : IPEqual a b = IPEqual b a := by
  unfold IPEqual
  by_cases h : a.length = b.length
  · rw [if_pos h, if_pos h.symm]
    exact BEq.comm
  · have h2 : ¬ b.length = a.length := fun e => h e.symm
    rw [if_neg h, if_neg h2]
    by_cases h3 : a.length = 4 ∧ b.length = 16
    · have h5 : ¬ (b.length = 4 ∧ a.length = 16) := by omega
      have h6 : b.length = 16 ∧ a.length = 4 := ⟨h3.2, h3.1⟩
      rw [if_pos h3, if_neg h5, if_pos h6]
      congr 1
      exact BEq.comm
    · by_cases h4 : a.length = 16 ∧ b.length = 4
      · have h5 : b.length = 4 ∧ a.length = 16 := ⟨h4.2, h4.1⟩
        rw [if_neg h3, if_pos h4, if_pos h5]
        congr 1
        exact BEq.comm
      · have h5 : ¬ (b.length = 4 ∧ a.length = 16) := fun e => h4 ⟨e.2, e.1⟩
        have h6 : ¬ (b.length = 16 ∧ a.length = 4) := fun e => h3 ⟨e.2, e.1⟩
        rw [if_neg h3, if_neg h4, if_neg h5, if_neg h6]

theorem AddressEq_refl (a : UDPAddr) : AddressEq a a = true := by
  unfold AddressEq
  rw [IPEqual_refl, beq_self_eq_true]
  rfl

theorem AddressEq_symm (a b : UDPAddr) : AddressEq a b = AddressEq b a := by
  unfold AddressEq
  rw [IPEqual_symm a.IP b.IP]
  congr 1
  exact BEq.comm

/-! ## The scan loop -/

theorem scanConversations_cons (conv : Conversation) (rest : List Conversation)
    (source dest : UDPAddr) :
    scanConversations (conv :: rest) source dest =
      if matchesPair conv source dest then some conv
      else scanConversations rest source dest := by
  unfold matchesPair
  rw [scanConversations]
  by_cases h1 : (AddressEq source conv.Client && AddressEq dest conv.Server) = true
  · simp [h1]
  · by_cases h2 : (AddressEq source conv.Server && AddressEq dest conv.Client) = true
    · simp [h2]
    · rw [if_neg h1, if_neg h2, if_neg]
      simp only [Bool.or_eq_true, not_or]
      exact ⟨h1, h2⟩

theorem matchesPair_swap (conv : Conversation) (source dest : UDPAddr) :
    matchesPair conv dest source = matchesPair conv source dest := by
  unfold matchesPair
  rw [Bool.or_comm, Bool.and_comm (AddressEq source conv.Server),
    Bool.and_comm (AddressEq source conv.Client)]

theorem matchesPair_self (c : Conversation) : matchesPair c c.Client c.Server = true := by
  unfold matchesPair
  rw [AddressEq_refl, AddressEq_refl]
  rfl

theorem matchesPair_symm (a b : Conversation) :
    matchesPair a b.Client b.Server = matchesPair b a.Client a.Server := by
  unfold matchesPair
  rw [AddressEq_symm b.Client a.Client, AddressEq_symm b.Server a.Server,
    AddressEq_symm b.Client a.Server, AddressEq_symm b.Server a.Client,
    Bool.and_comm (AddressEq a.Server b.Client)]

theorem scanConversations_eq_none (convs : List Conversation) (source dest : UDPAddr) :
    scanConversations convs source dest = none ↔
      ∀ c ∈ convs, matchesPair c source dest = false := by
  induction convs with
  | nil => simp [scanConversations]
  | cons x rest ih =>
    rw [scanConversations_cons]
    by_cases h : matchesPair x source dest = true
    · simp [h]
    · rw [if_neg h, ih]
      simp only [List.mem_cons, forall_eq_or_imp]
      constructor
      · intro hr
        exact ⟨by simpa using h, hr⟩
      · intro hr
        exact hr.2

theorem scanConversations_eq_some (convs : List Conversation) (source dest : UDPAddr)
    (c : Conversation) (h : scanConversations convs source dest = some c) :
    c ∈ convs ∧ matchesPair c source dest = true := by
  induction convs with
  | nil => simp [scanConversations] at h
  | cons x rest ih =>
    rw [scanConversations_cons] at h
    by_cases hx : matchesPair x source dest = true
    · rw [if_pos hx] at h
      cases h
      exact ⟨List.mem_cons_self _ _, hx⟩
    · rw [if_neg hx] at h
      exact ⟨List.mem_cons_of_mem _ (ih h).1, (ih h).2⟩

theorem scanConversations_of_mem (convs : List Conversation) (hp : PairwiseDistinct convs)
    (c : Conversation) (hc : c ∈ convs) (source dest : UDPAddr)
    (hm : matchesPair c source dest = true)
    (hx : ∀ x ∈ convs, matchesPair x source dest = matchesPair x c.Client c.Server) :
    scanConversations convs source dest = some c := by
  induction convs with
  | nil => cases hc
  | cons x rest ih =>
    rw [scanConversations_cons]
    unfold PairwiseDistinct at hp
    rw [List.pairwise_cons] at hp
    rcases List.mem_cons.mp hc with h | h
    · subst h
      rw [if_pos hm]
    · have h1 : matchesPair c x.Client x.Server = false := hp.1 c h
      have h2 : matchesPair x source dest = false := by
        rw [hx x (List.mem_cons_self _ _), matchesPair_symm]
        exact h1
      rw [if_neg (by simp [h2])]
      exact ih hp.2 h (fun y hy => hx y (List.mem_cons_of_mem _ hy))

/-! ## `ConversationFor` -/

theorem AddConversation_Conversations (s s1 : CaptureSession) (c : Conversation)
    (v : Option PacketListViewer) (h : s.AddConversation c = some (v, s1)) :
    s1.Conversations = s.Conversations := by
  unfold CaptureSession.AddConversation at h
  by_cases hocc : s.InitialViewerOccupied = true
  · simp [hocc] at h
    rw [← h.2]
  · simp [hocc] at h
    cases hl : s.ListViewers with
    | nil => simp [hl] at h
    | cons w rest =>
      simp [hl] at h
      rw [← h.2]

theorem ConversationFor_found (isOffline : List Nat → Bool) (s : CaptureSession)
    (source dest : UDPAddr) (payload : List Nat) (c : Conversation)
    (h : scanConversations s.Conversations source dest = some c) :
    s.ConversationFor isOffline source dest payload = some (some c, s) := by
  unfold CaptureSession.ConversationFor
  rw [h]

theorem ConversationFor_reject (isOffline : List Nat → Bool) (s : CaptureSession)
    (source dest : UDPAddr) (payload : List Nat)
    (h : scanConversations s.Conversations source dest = none)
    (hp : payload.head? ≠ some 0x7B ∨ isOffline payload = false) :
    s.ConversationFor isOffline source dest payload = some (none, s) := by
  unfold CaptureSession.ConversationFor
  rw [h]
  by_cases h7 : payload.head? = some 0x7B
  · rcases hp with hp | hp
    · exact absurd h7 hp
    · simp [hp]
  · simp [h7]

theorem ConversationFor_open (isOffline : List Nat → Bool) (s : CaptureSession)
    (source dest : UDPAddr) (payload : List Nat)
    (h : scanConversations s.Conversations source dest = none)
    (h7 : payload.head? = some 0x7B) (ho : isOffline payload = true) :
    s.ConversationFor isOffline source dest payload =
      (({ s with
          nextRef := s.nextRef + 3
          Conversations := s.Conversations ++ [newConversation s source dest] } :
          CaptureSession).AddConversation (newConversation s source dest)).map
        (fun r => (some (newConversation s source dest), r.2)) := by
  unfold CaptureSession.ConversationFor
  rw [h]
  have hlen : ¬ payload.length < 1 := by
    cases payload with
    | nil => simp at h7
    | cons a t => simp
  simp only [hlen, h7, ho, decide_False, bne_self_eq_false, Bool.or_self, Bool.not_true,
    Bool.false_eq_true, if_false]
  simp only [newConversation, NewPacketReader, PacketReader.SetContext,
    PacketReader.SetIsClient, PacketReader.BindDataModelHandlers]
  cases hadd : CaptureSession.AddConversation _ _ with
  | none => rfl
  | some r => rfl

theorem ConversationFor_cases (isOffline : List Nat → Bool) (s s1 : CaptureSession)
    (source dest : UDPAddr) (payload : List Nat) (r : Option Conversation)
    (h : s.ConversationFor isOffline source dest payload = some (r, s1)) :
    s1 = s ∨
      (scanConversations s.Conversations source dest = none ∧
        s1.Conversations = s.Conversations ++ [newConversation s source dest]) := by
  cases hs : scanConversations s.Conversations source dest with
  | some c =>
    rw [ConversationFor_found isOffline s source dest payload c hs] at h
    left
    cases h
    rfl
  | none =>
    by_cases hp : payload.head? ≠ some 0x7B ∨ isOffline payload = false
    · rw [ConversationFor_reject isOffline s source dest payload hs hp] at h
      left
      cases h
      rfl
    · have h7 : payload.head? = some 0x7B := by
        by_contra hc
        exact hp (Or.inl hc)
      have ho : isOffline payload = true := by
        cases hv : isOffline payload with
        | true => rfl
        | false => exact absurd (Or.inr hv) hp
      rw [ConversationFor_open isOffline s source dest payload hs h7 ho] at h
      right
      refine ⟨rfl, ?_⟩
      cases hadd : CaptureSession.AddConversation
          ({ s with
            nextRef := s.nextRef + 3
            Conversations := s.Conversations ++ [newConversation s source dest] } :
            CaptureSession) (newConversation s source dest) with
      | none => rw [hadd] at h; cases h
      | some q =>
        rw [hadd] at h
        simp only [Option.map_some'] at h
        cases h
        exact AddConversation_Conversations _ _ _ q.1 hadd

theorem Reachable_PairwiseDistinct (isOffline : List Nat → Bool) (s : CaptureSession)
    (h : Reachable isOffline s) : PairwiseDistinct s.Conversations := by
  induction h with
  | empty s he =>
    unfold PairwiseDistinct
    rw [he]
    exact List.Pairwise.nil
  | call s s1 source dest payload r _ hcall ih =>
    rcases ConversationFor_cases isOffline s s1 source dest payload r hcall with h | ⟨hn, hc⟩
    · rw [h]
      exact ih
    · unfold PairwiseDistinct at ih ⊢
      rw [hc, List.pairwise_append]
      refine ⟨ih, List.pairwise_singleton _ _, ?_⟩
      intro a ha b hb
      rw [List.mem_singleton] at hb
      subst hb
      rw [matchesPair_symm]
      exact (scanConversations_eq_none _ _ _).mp hn a ha

theorem matchesPair_eq_false_iff (c : Conversation) (source dest : UDPAddr) :
    matchesPair c source dest = false ↔
      ¬ (AddressEq source c.Client = true ∧ AddressEq dest c.Server = true) ∧
        ¬ (AddressEq source c.Server = true ∧ AddressEq dest c.Client = true) := by
  unfold matchesPair
  rw [Bool.or_eq_false_iff, Bool.and_eq_false_iff, Bool.and_eq_false_iff]
  constructor
  · rintro ⟨h1, h2⟩
    constructor
    · rintro ⟨a, b⟩
      rcases h1 with h | h
      · rw [a] at h; cases h
      · rw [b] at h; cases h
    · rintro ⟨a, b⟩
      rcases h2 with h | h
      · rw [a] at h; cases h
      · rw [b] at h; cases h
  · rintro ⟨h1, h2⟩
    constructor
    · cases ha : AddressEq source c.Client with
      | false => exact Or.inl rfl
      | true =>
        cases hb : AddressEq dest c.Server with
        | false => exact Or.inr rfl
        | true => exact absurd ⟨ha, hb⟩ h1
    · cases ha : AddressEq source c.Server with
      | false => exact Or.inl rfl
      | true =>
        cases hb : AddressEq dest c.Client with
        | false => exact Or.inr rfl
        | true => exact absurd ⟨ha, hb⟩ h2

theorem PairwiseDistinct_count (convs : List Conversation) (hp : PairwiseDistinct convs)
    (c : Conversation) (hc : c ∈ convs) : convs.count c = 1 := by
  have hn : convs.Nodup := by
    unfold PairwiseDistinct at hp
    refine List.Pairwise.imp ?_ hp
    intro a b hab heq
    rw [heq, matchesPair_self] at hab
    cases hab
  exact List.count_eq_one_of_mem hn hc

theorem sessionAB_reachable :
    Reachable (IsOfflineMessage sampleOfflineMessageID) sessionAB :=
  Reachable.call (NewCaptureSession "cap") sessionAB addrA addrB samplePayload (some convAB)
    (Reachable.empty _ rfl) (by decide)

theorem sessionABC_reachable :
    Reachable (IsOfflineMessage sampleOfflineMessageID) sessionABC :=
  Reachable.call sessionAB sessionABC addrC addrB samplePayload (some convCB)
    sessionAB_reachable (by decide)

/-! ## Claims about the conversation registry -/

/-- C1: in every session state reachable from an empty session through
`ConversationFor` calls, for every conversation `c` of the list and every
payload, `ConversationFor(c.Client, c.Server, p)` and
`ConversationFor(c.Server, c.Client, p)` both return `c` and leave the session
(so its conversation list) unchanged; `c` is one single entry of the list. -/
theorem lookup_returns_same_conversation (isOffline : List Nat → Bool) (s : CaptureSession)
    (hs : Reachable isOffline s) (c : Conversation) (hc : c ∈ s.Conversations)
    (p : List Nat) :
    s.ConversationFor isOffline c.Client c.Server p = some (some c, s) ∧
      s.ConversationFor isOffline c.Server c.Client p = some (some c, s) ∧
      s.Conversations.count c = 1 := by
  have hp := Reachable_PairwiseDistinct isOffline s hs
  refine ⟨?_, ?_, PairwiseDistinct_count _ hp c hc⟩
  · exact ConversationFor_found _ _ _ _ _ _
      (scanConversations_of_mem _ hp c hc _ _ (matchesPair_self c) (fun _ _ => rfl))
  · refine ConversationFor_found _ _ _ _ _ _
      (scanConversations_of_mem _ hp c hc _ _ ?_ (fun x _ => matchesPair_swap x _ _))
    rw [matchesPair_swap]
    exact matchesPair_self c

theorem lookup_returns_same_conversation_witness :
    Reachable (IsOfflineMessage sampleOfflineMessageID) sessionABC ∧
      convCB ∈ sessionABC.Conversations ∧
      sessionABC.ConversationFor (IsOfflineMessage sampleOfflineMessageID)
          convCB.Client convCB.Server [0x01, 0x02] = some (some convCB, sessionABC) ∧
      sessionABC.ConversationFor (IsOfflineMessage sampleOfflineMessageID)
          convCB.Server convCB.Client [0x01, 0x02] = some (some convCB, sessionABC) ∧
      sessionABC.Conversations.count convCB = 1 :=
  ⟨sessionABC_reachable, by decide,
    lookup_returns_same_conversation _ sessionABC sessionABC_reachable convCB (by decide)
      [0x01, 0x02]⟩

theorem IsOfflineMessage_signature (sig data : List Nat)
    (h : IsOfflineMessage sig data = true) : sig <+: data.drop 1 := by
  unfold IsOfflineMessage at h
  rw [Bool.and_eq_true, decide_eq_true_iff, beq_iff_eq] at h
  rw [List.prefix_iff_eq_take]
  exact h.2.symm

theorem no_match_iff_scan_none (convs : List Conversation) (source dest : UDPAddr) :
    scanConversations convs source dest = none ↔
      ∀ c ∈ convs,
        ¬ (AddressEq source c.Client = true ∧ AddressEq dest c.Server = true) ∧
          ¬ (AddressEq source c.Server = true ∧ AddressEq dest c.Client = true) := by
  rw [scanConversations_eq_none]
  constructor
  · intro h c hc
    exact (matchesPair_eq_false_iff c source dest).mp (h c hc)
  · intro h c hc
    exact (matchesPair_eq_false_iff c source dest).mpr (h c hc)

/-- C2 (as stated, refuted): the payload `[0x01, 0x02]` does not begin with the
marker byte 0x7B, yet from B:2000 to A:1000 in the session that holds the
conversation A:1000 <-> B:2000 `ConversationFor` returns that conversation,
not none. -/
theorem non_handshake_payload_returns_existing :
    ([0x01, 0x02] : List Nat).head? ≠ some 0x7B ∧
      sessionAB.ConversationFor (IsOfflineMessage sampleOfflineMessageID) addrB addrA
          [0x01, 0x02] = some (some convAB, sessionAB) ∧
      sessionAB.ConversationFor (IsOfflineMessage sampleOfflineMessageID) addrB addrA
          [0x01, 0x02] ≠ some (none, sessionAB) := by
  decide

/-- C2 (amended): for any prior session state and any addresses, a call of
`ConversationFor` whose payload does not begin with 0x7B, or is not followed by
the offline-handshake signature after its first byte, never creates a
conversation: the session is left as it was. The call returns none exactly when
no existing conversation matches the address pair in either orientation, and
otherwise returns an existing conversation that matches it. The classifier
`peer.IsOfflineMessage` is any function that accepts only payloads carrying the
signature `sig` right after their first byte. -/
theorem non_handshake_payload_never_creates (isOffline : List Nat → Bool) (sig : List Nat)
    (hsig : ∀ q : List Nat, isOffline q = true → sig <+: q.drop 1)
    (s : CaptureSession) (source dest : UDPAddr) (p : List Nat)
    (hp : p.head? ≠ some 0x7B ∨ ¬ sig <+: p.drop 1) :
    ∃ r : Option Conversation,
      s.ConversationFor isOffline source dest p = some (r, s) ∧
      (r = none ↔ ∀ c ∈ s.Conversations,
        ¬ (AddressEq source c.Client = true ∧ AddressEq dest c.Server = true) ∧
          ¬ (AddressEq source c.Server = true ∧ AddressEq dest c.Client = true)) ∧
      (∀ c, r = some c → c ∈ s.Conversations ∧
        ((AddressEq source c.Client = true ∧ AddressEq dest c.Server = true) ∨
          (AddressEq source c.Server = true ∧ AddressEq dest c.Client = true))) := by
  refine ⟨scanConversations s.Conversations source dest, ?_, no_match_iff_scan_none _ _ _, ?_⟩
  · cases hsc : scanConversations s.Conversations source dest with
    | some c => exact ConversationFor_found _ _ _ _ _ _ hsc
    | none =>
      refine ConversationFor_reject _ _ _ _ _ hsc ?_
      rcases hp with h | h
      · exact Or.inl h
      · right
        cases hv : isOffline p with
        | false => rfl
        | true => exact absurd (hsig p hv) h
  · intro c hc
    have h := scanConversations_eq_some _ _ _ c hc
    refine ⟨h.1, ?_⟩
    have hm := h.2
    unfold matchesPair at hm
    rw [Bool.or_eq_true, Bool.and_eq_true, Bool.and_eq_true] at hm
    exact hm

theorem non_handshake_payload_never_creates_witness :
    (∀ q : List Nat, IsOfflineMessage sampleOfflineMessageID q = true →
        sampleOfflineMessageID <+: q.drop 1) ∧
      (([0x7B, 0x00, 0xFF] : List Nat).head? ≠ some 0x7B ∨
        ¬ sampleOfflineMessageID <+: ([0x7B, 0x00, 0xFF] : List Nat).drop 1) ∧
      ∃ r : Option Conversation,
        sessionAB.ConversationFor (IsOfflineMessage sampleOfflineMessageID) addrC addrB
            [0x7B, 0x00, 0xFF] = some (r, sessionAB) ∧
        (r = none ↔ ∀ c ∈ sessionAB.Conversations,
          ¬ (AddressEq addrC c.Client = true ∧ AddressEq addrB c.Server = true) ∧
            ¬ (AddressEq addrC c.Server = true ∧ AddressEq addrB c.Client = true)) ∧
        (∀ c, r = some c → c ∈ sessionAB.Conversations ∧
          ((AddressEq addrC c.Client = true ∧ AddressEq addrB c.Server = true) ∨
            (AddressEq addrC c.Server = true ∧ AddressEq addrB c.Client = true))) :=
  ⟨IsOfflineMessage_signature sampleOfflineMessageID, Or.inr (by decide),
    non_handshake_payload_never_creates (IsOfflineMessage sampleOfflineMessageID)
      sampleOfflineMessageID (IsOfflineMessage_signature sampleOfflineMessageID) sessionAB
      addrC addrB [0x7B, 0x00, 0xFF] (Or.inr (by decide))⟩

/-- C3: when no existing conversation matches (source, dest) in either
orientation and the payload is empty, or its first byte is not 0x7B, or it is
not recognised as an offline handshake message, `ConversationFor` returns none
and leaves the whole session as it was (conversation list, viewer counter,
handle-occupied flag and everything else): the datagram is dropped. -/
theorem unmatched_non_handshake_dropped (isOffline : List Nat → Bool) (s : CaptureSession)
    (source dest : UDPAddr) (p : List Nat)
    (hno : ∀ c ∈ s.Conversations,
      ¬ (AddressEq source c.Client = true ∧ AddressEq dest c.Server = true) ∧
        ¬ (AddressEq source c.Server = true ∧ AddressEq dest c.Client = true))
    (hp : p = [] ∨ p.head? ≠ some 0x7B ∨ isOffline p = false) :
    s.ConversationFor isOffline source dest p = some (none, s) := by
  refine ConversationFor_reject _ _ _ _ _ ((no_match_iff_scan_none _ _ _).mpr hno) ?_
  rcases hp with h | h | h
  · left
    rw [h]
    simp
  · exact Or.inl h
  · exact Or.inr h

theorem unmatched_non_handshake_dropped_witness :
    (∀ c ∈ sessionAB.Conversations,
        ¬ (AddressEq addrC c.Client = true ∧ AddressEq addrB c.Server = true) ∧
          ¬ (AddressEq addrC c.Server = true ∧ AddressEq addrB c.Client = true)) ∧
      (([0x7B, 0x00, 0xFF] : List Nat) = [] ∨
        ([0x7B, 0x00, 0xFF] : List Nat).head? ≠ some 0x7B ∨
        IsOfflineMessage sampleOfflineMessageID [0x7B, 0x00, 0xFF] = false) ∧
      sessionAB.ConversationFor (IsOfflineMessage sampleOfflineMessageID) addrC addrB
          [0x7B, 0x00, 0xFF] = some (none, sessionAB) :=
  ⟨by decide, Or.inr (Or.inr (by decide)),
    unmatched_non_handshake_dropped _ sessionAB addrC addrB [0x7B, 0x00, 0xFF] (by decide)
      (Or.inr (Or.inr (by decide)))⟩

/-- C4: in every session state reachable from an empty session by
`ConversationFor` calls, two entries `c1`, `c2` at different positions of the
conversation list never have the same unordered address pair: neither
`(c1.Client, c1.Server)` nor `(c1.Server, c1.Client)` is `AddressEq`-equal to
`(c2.Client, c2.Server)`. -/
theorem at_most_one_conversation_per_pair (isOffline : List Nat → Bool) (s : CaptureSession)
    (hs : Reachable isOffline s) (i j : Fin s.Conversations.length) (hij : i ≠ j) :
    ¬ (AddressEq (s.Conversations.get i).Client (s.Conversations.get j).Client = true ∧
        AddressEq (s.Conversations.get i).Server (s.Conversations.get j).Server = true) ∧
      ¬ (AddressEq (s.Conversations.get i).Server (s.Conversations.get j).Client = true ∧
        AddressEq (s.Conversations.get i).Client (s.Conversations.get j).Server = true) := by
  have hp := Reachable_PairwiseDistinct isOffline s hs
  unfold PairwiseDistinct at hp
  rw [List.pairwise_iff_get] at hp
  have key : matchesPair (s.Conversations.get j) (s.Conversations.get i).Client
      (s.Conversations.get i).Server = false := by
    rcases lt_or_gt_of_ne hij with h | h
    · exact hp i j h
    · rw [matchesPair_symm]
      exact hp j i h
  have key2 := (matchesPair_eq_false_iff _ _ _).mp key
  exact ⟨key2.1, fun h => key2.2 ⟨h.2, h.1⟩⟩

theorem at_most_one_conversation_per_pair_witness :
    Reachable (IsOfflineMessage sampleOfflineMessageID) sessionABC ∧
      ((⟨0, by decide⟩ : Fin sessionABC.Conversations.length) ≠ ⟨1, by decide⟩) ∧
      ¬ (AddressEq (sessionABC.Conversations.get ⟨0, by decide⟩).Client
            (sessionABC.Conversations.get ⟨1, by decide⟩).Client = true ∧
          AddressEq (sessionABC.Conversations.get ⟨0, by decide⟩).Server
            (sessionABC.Conversations.get ⟨1, by decide⟩).Server = true) ∧
      ¬ (AddressEq (sessionABC.Conversations.get ⟨0, by decide⟩).Server
            (sessionABC.Conversations.get ⟨1, by decide⟩).Client = true ∧
          AddressEq (sessionABC.Conversations.get ⟨0, by decide⟩).Client
            (sessionABC.Conversations.get ⟨1, by decide⟩).Server = true) :=
  ⟨sessionABC_reachable, by decide,
    at_most_one_conversation_per_pair _ sessionABC sessionABC_reachable ⟨0, by decide⟩
      ⟨1, by decide⟩ (by decide)⟩

theorem NewCaptureSession_HandleConsistent (name : String) :
    HandleConsistent (NewCaptureSession name) := by
  unfold HandleConsistent NewCaptureSession
  simp

theorem AddConversation_unoccupied (s : CaptureSession) (c : Conversation)
    (v : PacketListViewer) (rest : List PacketListViewer)
    (hocc : s.InitialViewerOccupied = false) (hl : s.ListViewers = v :: rest) :
    s.AddConversation c =
      some (some { v with Conversation := some c },
        { s with
          InitialViewerOccupied := true
          ListViewers := { v with Conversation := some c } :: rest
          handlers := s.handlers ++
            [ { reader := c.ClientReader.ref, errors := false },
              { reader := c.ClientReader.ref, errors := true },
              { reader := c.ServerReader.ref, errors := false },
              { reader := c.ServerReader.ref, errors := true } ] }) := by
  unfold CaptureSession.AddConversation
  simp [hocc, hl]

theorem AddConversation_occupied (s : CaptureSession) (c : Conversation)
    (hocc : s.InitialViewerOccupied = true) :
    s.AddConversation c =
      some (none,
        { s with
          ViewerCounter := (s.ViewerCounter + 1) % 2 ^ 64
          idleQueue := s.idleQueue ++
            [IdleTask.newViewer (s.Name ++ "#" ++ toString s.ViewerCounter) c]
          handlers := s.handlers ++
            [ { reader := c.ClientReader.ref, errors := false },
              { reader := c.ClientReader.ref, errors := true },
              { reader := c.ServerReader.ref, errors := false },
              { reader := c.ServerReader.ref, errors := true } ] }) := by
  unfold CaptureSession.AddConversation
  simp [hocc]

theorem ConversationFor_open_result (isOffline : List Nat → Bool) (s : CaptureSession)
    (source dest : UDPAddr) (p : List Nat)
    (hsc : scanConversations s.Conversations source dest = none)
    (h7 : p.head? = some 0x7B) (ho : isOffline p = true)
    (hv : s.InitialViewerOccupied = false → s.ListViewers ≠ []) :
    ∃ (c : Conversation) (s1 : CaptureSession),
      s.ConversationFor isOffline source dest p = some (some c, s1) ∧
      s1.Conversations = s.Conversations ++ [c] ∧
      c.Client = source ∧ c.Server = dest ∧
      c.ClientReader.context = some c.Context ∧
      c.ServerReader.context = some c.Context ∧
      c.Context = s.nextRef ∧ s1.nextRef = s.nextRef + 3 ∧
      c.ClientReader.ref ≠ c.ServerReader.ref ∧
      c.ClientReader.isClient = true ∧ c.ServerReader.isClient = false ∧
      s1.InitialViewerOccupied = true ∧
      (s.InitialViewerOccupied = false →
        ∃ v rest, s.ListViewers = v :: rest ∧
          s1.ListViewers = { v with Conversation := some c } :: rest) ∧
      (s.InitialViewerOccupied = true → s1.ListViewers = s.ListViewers) := by
  have hopen := ConversationFor_open isOffline s source dest p hsc h7 ho
  by_cases hocc : s.InitialViewerOccupied = true
  · have hadd := AddConversation_occupied
      ({ s with
        nextRef := s.nextRef + 3
        Conversations := s.Conversations ++ [newConversation s source dest] } : CaptureSession)
      (newConversation s source dest) hocc
    rw [hadd] at hopen
    refine ⟨newConversation s source dest, _, hopen, rfl, rfl, rfl, rfl, rfl, rfl, rfl,
      ?_, rfl, rfl, hocc, ?_, ?_⟩
    · simp [newConversation]
    · intro h
      rw [hocc] at h
      cases h
    · intro _
      rfl
  · have hocc2 : s.InitialViewerOccupied = false := by
      cases hval : s.InitialViewerOccupied with
      | false => rfl
      | true => exact absurd hval hocc
    cases hl : s.ListViewers with
    | nil => exact absurd hl (hv hocc2)
    | cons v rest =>
      have hadd := AddConversation_unoccupied
        ({ s with
          nextRef := s.nextRef + 3
          Conversations := s.Conversations ++ [newConversation s source dest] } :
          CaptureSession)
        (newConversation s source dest) v rest hocc2 hl
      rw [hadd] at hopen
      refine ⟨newConversation s source dest, _, hopen, rfl, rfl, rfl, rfl, rfl, rfl, rfl,
        ?_, rfl, rfl, rfl, ?_, ?_⟩
      · simp [newConversation]
      · intro _
        exact ⟨v, rest, rfl, rfl⟩
      · intro h
        exact absurd h hocc

/-- C5: in every session state in which no conversation matches (source, dest)
in either orientation (and whose pre-allocated viewer exists if it is still
unoccupied), a payload that starts with 0x7B and is an offline handshake message
makes `ConversationFor` append exactly one conversation to the list (the
existing entries kept, in order) and return it; that conversation has
Client = source and Server = dest, and its two readers are distinct readers bound
to one shared context, the context newly allocated by this call (only the
client reader is flagged client-side). Afterwards the handle-occupied flag is
true, and if the handle was unoccupied before (the conversation is the first of
the session), `ListViewers[0]` is now bound to the new conversation. -/
theorem handshake_opens_conversation (isOffline : List Nat → Bool) (s : CaptureSession)
    (source dest : UDPAddr) (p : List Nat)
    (hno : ∀ c ∈ s.Conversations,
      ¬ (AddressEq source c.Client = true ∧ AddressEq dest c.Server = true) ∧
        ¬ (AddressEq source c.Server = true ∧ AddressEq dest c.Client = true))
    (h7 : p.head? = some 0x7B) (ho : isOffline p = true)
    (hv : s.InitialViewerOccupied = false → s.ListViewers ≠ []) :
    ∃ (c : Conversation) (s1 : CaptureSession),
      s.ConversationFor isOffline source dest p = some (some c, s1) ∧
      s1.Conversations = s.Conversations ++ [c] ∧
      c.Client = source ∧ c.Server = dest ∧
      c.ClientReader.context = some c.Context ∧
      c.ServerReader.context = some c.Context ∧
      c.Context = s.nextRef ∧ s1.nextRef = s.nextRef + 3 ∧
      c.ClientReader.ref ≠ c.ServerReader.ref ∧
      c.ClientReader.isClient = true ∧ c.ServerReader.isClient = false ∧
      s1.InitialViewerOccupied = true ∧
      (s.InitialViewerOccupied = false →
        ∃ v rest, s.ListViewers = v :: rest ∧
          s1.ListViewers = { v with Conversation := some c } :: rest) ∧
      (s.InitialViewerOccupied = true → s1.ListViewers = s.ListViewers) :=
  ConversationFor_open_result isOffline s source dest p
    ((no_match_iff_scan_none _ _ _).mpr hno) h7 ho hv

theorem handshake_opens_conversation_witness :
    (∀ c ∈ (NewCaptureSession "cap").Conversations,
        ¬ (AddressEq addrA c.Client = true ∧ AddressEq addrB c.Server = true) ∧
          ¬ (AddressEq addrA c.Server = true ∧ AddressEq addrB c.Client = true)) ∧
      samplePayload.head? = some 0x7B ∧
      IsOfflineMessage sampleOfflineMessageID samplePayload = true ∧
      ((NewCaptureSession "cap").InitialViewerOccupied = false →
        (NewCaptureSession "cap").ListViewers ≠ []) ∧
      ∃ (c : Conversation) (s1 : CaptureSession),
        (NewCaptureSession "cap").ConversationFor (IsOfflineMessage sampleOfflineMessageID)
            addrA addrB samplePayload = some (some c, s1) ∧
        s1.Conversations = (NewCaptureSession "cap").Conversations ++ [c] ∧
        c.Client = addrA ∧ c.Server = addrB ∧
        c.ClientReader.context = some c.Context ∧
        c.ServerReader.context = some c.Context ∧
        c.Context = (NewCaptureSession "cap").nextRef ∧
        s1.nextRef = (NewCaptureSession "cap").nextRef + 3 ∧
        c.ClientReader.ref ≠ c.ServerReader.ref ∧
        c.ClientReader.isClient = true ∧ c.ServerReader.isClient = false ∧
        s1.InitialViewerOccupied = true ∧
        ((NewCaptureSession "cap").InitialViewerOccupied = false →
          ∃ v rest, (NewCaptureSession "cap").ListViewers = v :: rest ∧
            s1.ListViewers = { v with Conversation := some c } :: rest) ∧
        ((NewCaptureSession "cap").InitialViewerOccupied = true →
          s1.ListViewers = (NewCaptureSession "cap").ListViewers) :=
  ⟨by decide, by decide, by decide, by decide,
    handshake_opens_conversation (IsOfflineMessage sampleOfflineMessageID)
      (NewCaptureSession "cap") addrA addrB samplePayload (by decide) (by decide) (by decide)
      (by decide)⟩

/-- In a session built by `NewCaptureSession` and `ConversationFor` calls the
pre-allocated viewer exists and is unoccupied exactly while the conversation
list is empty: the conversation that finds it unoccupied is the first one. -/
theorem ConversationFor_HandleConsistent (isOffline : List Nat → Bool)
    (s s1 : CaptureSession) (source dest : UDPAddr) (p : List Nat) (r : Option Conversation)
    (hc : HandleConsistent s)
    (h : s.ConversationFor isOffline source dest p = some (r, s1)) :
    HandleConsistent s1 := by
  cases hs : scanConversations s.Conversations source dest with
  | some c =>
    rw [ConversationFor_found isOffline s source dest p c hs] at h
    cases h
    exact hc
  | none =>
    by_cases hp : p.head? ≠ some 0x7B ∨ isOffline p = false
    · rw [ConversationFor_reject isOffline s source dest p hs hp] at h
      cases h
      exact hc
    · have h7 : p.head? = some 0x7B := by
        by_contra hcon
        exact hp (Or.inl hcon)
      have ho : isOffline p = true := by
        cases hval : isOffline p with
        | true => rfl
        | false => exact absurd (Or.inr hval) hp
      obtain ⟨c, s2, hcall, hconv, _, _, _, _, _, _, _, _, _, hflag, hfirst, hlater⟩ :=
        ConversationFor_open_result isOffline s source dest p hs h7 ho (fun _ => hc.1)
      rw [hcall] at h
      cases h
      unfold HandleConsistent
      refine ⟨?_, ?_⟩
      · cases hocc : s.InitialViewerOccupied with
        | false =>
          obtain ⟨v, rest, _, h2⟩ := hfirst hocc
          rw [h2]
          simp
        | true =>
          rw [hlater hocc]
          exact hc.1
      · rw [hflag, hconv]
        simp

/-! ## Claims about the capture loop -/

theorem captureFrame_filtered (isOffline : List Nat → Bool) (st : Capture) (packet : Packet)
    (now : Time) (payload : List Nat) (src dst : UDPAddr)
    (hpay : packet.ApplicationLayer = some payload) (hne : payload ≠ [])
    (hip : packet.IPv4.isSome = true ∨ packet.IPv6.isSome = true)
    (haddr : SrcAndDestFromGoPacket packet = some (src, dst)) :
    captureFrame isOffline st packet now =
      match st.session.ConversationFor isOffline src dst payload with
      | none => none
      | some (none, session1) =>
        some { session := session1, progress := st.progress + 1, log := st.log ++ [[]] }
      | some (some conv, session1) =>
        some
          { session := (session1.WritePacketToPCAP now src dst payload).SetProgress
              (st.progress + 1)
            progress := st.progress + 1
            log := st.log ++
              [[Call.WritePacketToPCAP src dst payload,
                Call.ReadPacket
                  (if AddressEq src conv.Client then conv.ClientReader else conv.ServerReader)
                  payload (NewLayers src dst (AddressEq src conv.Client)),
                Call.SetProgress (st.progress + 1)]] } := by
  have hudp : packet.UDP.isNone = false := by
    unfold SrcAndDestFromGoPacket at haddr
    cases hu : packet.UDP with
    | none => rw [hu] at haddr; cases haddr
    | some u => rfl
  have hipn : (packet.IPv4.isNone && packet.IPv6.isNone) = false := by
    rcases hip with h | h
    · rw [Option.isSome_iff_exists] at h
      obtain ⟨a, ha⟩ := h
      rw [ha]
      rfl
    · rw [Option.isSome_iff_exists] at h
      obtain ⟨a, ha⟩ := h
      rw [ha, Bool.and_comm]
      rfl
  have hlen : ¬ payload.length = 0 := by
    intro h
    exact hne (List.length_eq_zero.mp h)
  unfold captureFrame
  simp only [hpay, hudp, hipn, Option.isNone_some, Bool.or_self, Bool.false_eq_true, if_false,
    Option.getD_some, hlen, haddr]

/-- C6: for every frame that passes the filters of the capture loop and that
`ConversationFor` matches to a conversation, the loop makes exactly one
`ReadPacket` call with the payload: on the conversation's client reader, with
layers tagged FromClient = true and FromServer = false, when the source
address is `AddressEq` to the conversation's client address, and otherwise on
its server reader, with layers tagged FromClient = false and FromServer = true. -/
theorem matched_frame_routed_by_direction (isOffline : List Nat → Bool) (st : Capture)
    (packet : Packet) (now : Time) (payload : List Nat) (src dst : UDPAddr)
    (conv : Conversation) (session1 : CaptureSession)
    (hpay : packet.ApplicationLayer = some payload) (hne : payload ≠ [])
    (hip : packet.IPv4.isSome = true ∨ packet.IPv6.isSome = true)
    (haddr : SrcAndDestFromGoPacket packet = some (src, dst))
    (hconv : st.session.ConversationFor isOffline src dst payload = some (some conv, session1)) :
    ∃ (st1 : Capture) (reader : PacketReader) (layers : PacketLayers),
      captureFrame isOffline st packet now = some st1 ∧
      st1.log = st.log ++
        [[Call.WritePacketToPCAP src dst payload,
          Call.ReadPacket reader payload layers,
          Call.SetProgress (st.progress + 1)]] ∧
      layers.Root.Source = src ∧ layers.Root.Destination = dst ∧
      (AddressEq src conv.Client = true →
        reader = conv.ClientReader ∧
          layers.Root.FromClient = true ∧ layers.Root.FromServer = false) ∧
      (AddressEq src conv.Client = false →
        reader = conv.ServerReader ∧
          layers.Root.FromClient = false ∧ layers.Root.FromServer = true) := by
  have h := captureFrame_filtered isOffline st packet now payload src dst hpay hne hip haddr
  rw [hconv] at h
  refine ⟨_, _, _, h, rfl, rfl, rfl, ?_, ?_⟩
  · intro hc
    simp [hc, NewLayers]
  · intro hc
    simp [hc, NewLayers]

theorem matched_frame_routed_by_direction_witness :
    (udpFrame addrB addrA [0x01, 0x02]).ApplicationLayer = some [0x01, 0x02] ∧
      ([0x01, 0x02] : List Nat) ≠ [] ∧
      SrcAndDestFromGoPacket (udpFrame addrB addrA [0x01, 0x02]) = some (addrB, addrA) ∧
      CaptureFromSource (IsOfflineMessage sampleOfflineMessageID) (NewCaptureSession "cap")
          [Received.frame (udpFrame addrA addrB samplePayload) sampleTime] =
        some
          { session := sessionAB.SetProgress 1
            progress := 1
            log := [[Call.WritePacketToPCAP addrA addrB samplePayload,
              Call.ReadPacket convAB.ClientReader samplePayload (NewLayers addrA addrB true),
              Call.SetProgress 1]] } ∧
      (sessionAB.SetProgress 1).ConversationFor (IsOfflineMessage sampleOfflineMessageID)
          addrB addrA [0x01, 0x02] = some (some convAB, sessionAB.SetProgress 1) ∧
      AddressEq addrB convAB.Client = false ∧
      ∃ (st1 : Capture) (reader : PacketReader) (layers : PacketLayers),
        captureFrame (IsOfflineMessage sampleOfflineMessageID)
            { session := sessionAB.SetProgress 1
              progress := 1
              log := [[Call.WritePacketToPCAP addrA addrB samplePayload,
                Call.ReadPacket convAB.ClientReader samplePayload (NewLayers addrA addrB true),
                Call.SetProgress 1]] }
            (udpFrame addrB addrA [0x01, 0x02]) sampleTime = some st1 ∧
        st1.log =
          [[Call.WritePacketToPCAP addrA addrB samplePayload,
            Call.ReadPacket convAB.ClientReader samplePayload (NewLayers addrA addrB true),
            Call.SetProgress 1]] ++
          [[Call.WritePacketToPCAP addrB addrA [0x01, 0x02],
            Call.ReadPacket reader [0x01, 0x02] layers,
            Call.SetProgress (1 + 1)]] ∧
        layers.Root.Source = addrB ∧ layers.Root.Destination = addrA ∧
        (AddressEq addrB convAB.Client = true →
          reader = convAB.ClientReader ∧
            layers.Root.FromClient = true ∧ layers.Root.FromServer = false) ∧
        (AddressEq addrB convAB.Client = false →
          reader = convAB.ServerReader ∧
            layers.Root.FromClient = false ∧ layers.Root.FromServer = true) :=
  ⟨by decide, by decide, by decide, by decide, by decide, by decide,
    matched_frame_routed_by_direction (IsOfflineMessage sampleOfflineMessageID)
      { session := sessionAB.SetProgress 1
        progress := 1
        log := [[Call.WritePacketToPCAP addrA addrB samplePayload,
          Call.ReadPacket convAB.ClientReader samplePayload (NewLayers addrA addrB true),
          Call.SetProgress 1]] }
      (udpFrame addrB addrA [0x01, 0x02]) sampleTime [0x01, 0x02] addrB addrA convAB
      (sessionAB.SetProgress 1) (by decide) (by decide) (Or.inl (by decide)) (by decide)
      (by decide)⟩

theorem ConversationFor_none (isOffline : List Nat → Bool) (s s1 : CaptureSession)
    (source dest : UDPAddr) (p : List Nat)
    (h : s.ConversationFor isOffline source dest p = some (none, s1)) : s1 = s := by
  cases hs : scanConversations s.Conversations source dest with
  | some c =>
    rw [ConversationFor_found isOffline s source dest p c hs] at h
    cases h
  | none =>
    by_cases hp : p.head? ≠ some 0x7B ∨ isOffline p = false
    · rw [ConversationFor_reject isOffline s source dest p hs hp] at h
      cases h
      rfl
    · have h7 : p.head? = some 0x7B := by
        by_contra hcon
        exact hp (Or.inl hcon)
      have ho : isOffline p = true := by
        cases hval : isOffline p with
        | true => rfl
        | false => exact absurd (Or.inr hval) hp
      rw [ConversationFor_open isOffline s source dest p hs h7 ho] at h
      cases hadd : CaptureSession.AddConversation
          ({ s with
            nextRef := s.nextRef + 3
            Conversations := s.Conversations ++ [newConversation s source dest] } :
            CaptureSession) (newConversation s source dest) with
      | none => rw [hadd] at h; cases h
      | some q =>
        rw [hadd] at h
        simp only [Option.map_some'] at h
        cases h

theorem ConversationFor_total (isOffline : List Nat → Bool) (s : CaptureSession)
    (source dest : UDPAddr) (p : List Nat) (hv : ViewerReady s) :
    ∃ (r : Option Conversation) (s1 : CaptureSession),
      s.ConversationFor isOffline source dest p = some (r, s1) ∧ ViewerReady s1 := by
  cases hs : scanConversations s.Conversations source dest with
  | some c => exact ⟨some c, s, ConversationFor_found isOffline s source dest p c hs, hv⟩
  | none =>
    by_cases hp : p.head? ≠ some 0x7B ∨ isOffline p = false
    · exact ⟨none, s, ConversationFor_reject isOffline s source dest p hs hp, hv⟩
    · have h7 : p.head? = some 0x7B := by
        by_contra hcon
        exact hp (Or.inl hcon)
      have ho : isOffline p = true := by
        cases hval : isOffline p with
        | true => rfl
        | false => exact absurd (Or.inr hval) hp
      obtain ⟨c, s2, hcall, _, _, _, _, _, _, _, _, _, _, hflag, _, _⟩ :=
        ConversationFor_open_result isOffline s source dest p hs h7 ho hv
      refine ⟨some c, s2, hcall, ?_⟩
      intro hf
      rw [hflag] at hf
      cases hf

theorem WritePacketToPCAP_ViewerReady (now : Time) (s : CaptureSession) (src dst : UDPAddr)
    (payload : List Nat) (hv : ViewerReady s) :
    ViewerReady (s.WritePacketToPCAP now src dst payload) := by
  unfold CaptureSession.WritePacketToPCAP CaptureSession.WriteToPCAP
  cases hw : s.pcapWriter with
  | none => exact hv
  | some w =>
    simp only
    cases hf : pcapFrame src dst payload with
    | none => exact hv
    | some bytes =>
      simp only
      cases hfw : fileWrite s.files w (packetRecord now bytes) with
      | none => exact hv
      | some files => exact hv

theorem captureFrame_total (isOffline : List Nat → Bool) (st : Capture) (packet : Packet)
    (now : Time) (hv : ViewerReady st.session) :
    ∃ (st1 : Capture) (entry : List Call),
      captureFrame isOffline st packet now = some st1 ∧
      st1.progress = st.progress + 1 ∧
      ViewerReady st1.session ∧
      st1.log = st.log ++ [entry] ∧
      ((entry = [] ∧ st1.session.progress = st.session.progress) ∨
        (∃ w r, entry = [w, r, Call.SetProgress (st.progress + 1)] ∧
          st1.session.progress = st.progress + 1)) := by
  by_cases hfilter : (packet.ApplicationLayer.isNone ||
      (packet.IPv4.isNone && packet.IPv6.isNone) || packet.UDP.isNone) = true
  · refine ⟨{ st with progress := st.progress + 1, log := st.log ++ [[]] }, [], ?_, rfl, hv,
      rfl, Or.inl ⟨rfl, rfl⟩⟩
    unfold captureFrame
    rw [if_pos hfilter]
  · by_cases hlen : (packet.ApplicationLayer.getD []).length = 0
    · refine ⟨{ st with progress := st.progress + 1, log := st.log ++ [[]] }, [], ?_, rfl, hv,
        rfl, Or.inl ⟨rfl, rfl⟩⟩
      unfold captureFrame
      rw [if_neg hfilter]
      simp only [hlen, if_true]
    · simp only [Bool.or_eq_true, Bool.and_eq_true, not_or, not_and, Bool.not_eq_true,
        Option.isNone_eq_false_iff] at hfilter
      obtain ⟨⟨happ, hip⟩, hudp⟩ := hfilter
      rw [Option.isSome_iff_exists] at happ hudp
      obtain ⟨payload, hpay⟩ := happ
      obtain ⟨udp, hu⟩ := hudp
      have hip2 : packet.IPv4.isSome = true ∨ packet.IPv6.isSome = true := by
        cases h4 : packet.IPv4 with
        | some a => exact Or.inl rfl
        | none =>
          right
          have := hip (by rw [h4]; rfl)
          cases h6 : packet.IPv6 with
          | some b => rfl
          | none => rw [h6] at this; cases this
      have hne : payload ≠ [] := by
        intro h
        rw [hpay, h] at hlen
        exact hlen rfl
      obtain ⟨src, dst, haddr⟩ : ∃ src dst, SrcAndDestFromGoPacket packet = some (src, dst) := by
        unfold SrcAndDestFromGoPacket
        rw [hu]
        exact ⟨_, _, rfl⟩
      have h := captureFrame_filtered isOffline st packet now payload src dst hpay hne hip2 haddr
      obtain ⟨r, s1, hcall, hv1⟩ := ConversationFor_total isOffline st.session src dst payload hv
      rw [hcall] at h
      cases r with
      | none =>
        have hs := ConversationFor_none isOffline _ _ src dst payload hcall
        subst hs
        exact ⟨_, [], h, rfl, hv1, rfl, Or.inl ⟨rfl, rfl⟩⟩
      | some conv =>
        refine ⟨_, _, h, rfl, ?_, rfl, Or.inr ⟨_, _, rfl, rfl⟩⟩
        exact WritePacketToPCAP_ViewerReady now s1 src dst payload hv1

theorem captureLoop_frames (isOffline : List Nat → Bool) (frames : List (Packet × Time)) :
    ∀ st : Capture, ViewerReady st.session →
      ∃ (st1 : Capture) (entries : List (List Call)),
        captureLoop isOffline st (frames.map (fun f => Received.frame f.1 f.2)) = some st1 ∧
        st1.progress = st.progress + frames.length ∧
        st1.log = st.log ++ entries ∧
        entries.length = frames.length ∧
        (∀ (j : Nat) (e : List Call), entries.get? j = some e →
          e = [] ∨ ∃ w r, e = [w, r, Call.SetProgress (st.progress + (j : Int) + 1)]) ∧
        ViewerReady st1.session := by
  induction frames with
  | nil =>
    intro st hv
    refine ⟨st, [], rfl, by simp, by simp, rfl, ?_, hv⟩
    intro j e he
    simp at he
  | cons f rest ih =>
    intro st hv
    obtain ⟨st1, entry, hstep, hprog, hv1, hlog1, hentry0⟩ :=
      captureFrame_total isOffline st f.1 f.2 hv
    have hentry : entry = [] ∨ ∃ w r, entry = [w, r, Call.SetProgress (st.progress + 1)] :=
      hentry0.imp (fun h => h.1) (fun ⟨w, r, h, _⟩ => ⟨w, r, h⟩)
    obtain ⟨st2, entries, hrun, hprog2, hlog2, hlen2, hall, hv2⟩ := ih st1 hv1
    refine ⟨st2, entry :: entries, ?_, ?_, ?_, ?_, ?_, hv2⟩
    · simp only [List.map_cons, captureLoop, hstep]
      exact hrun
    · rw [hprog2, hprog, List.length_cons]
      push_cast
      ring
    · rw [hlog2, hlog1, List.append_assoc]
      rfl
    · rw [List.length_cons, hlen2, List.length_cons]
    · intro j e he
      cases j with
      | zero =>
        simp only [List.get?_cons_zero, Option.some.injEq] at he
        rw [← he]
        simpa using hentry
      | succ k =>
        simp only [List.get?_cons_succ] at he
        have h := hall k e he
        rw [hprog] at h
        have hcast : st.progress + ((k + 1 : Nat) : Int) + 1 = st.progress + 1 + (k : Int) + 1 := by
          push_cast
          ring
        rw [hcast]
        exact h

theorem captureLoop_append (isOffline : List Nat → Bool) (a : List (Packet × Time))
    (b : List Received) :
    ∀ st : Capture,
      captureLoop isOffline st (a.map (fun f => Received.frame f.1 f.2) ++ b) =
        (captureLoop isOffline st (a.map (fun f => Received.frame f.1 f.2))).bind
          (fun st1 => captureLoop isOffline st1 b) := by
  induction a with
  | nil =>
    intro st
    rfl
  | cons f rest ih =>
    intro st
    simp only [List.map_cons, List.cons_append, captureLoop]
    cases hstep : captureFrame isOffline st f.1 f.2 with
    | none => rfl
    | some st1 => exact ih st1

theorem captureLoop_frame_at (isOffline : List Nat → Bool) (s : CaptureSession)
    (hv : ViewerReady s) (a : List (Packet × Time)) (f : Packet × Time)
    (rest : List (Packet × Time)) :
    ∃ (sti sti1 st : Capture) (entry : List Call),
      CaptureFromSource isOffline s (a.map (fun f => Received.frame f.1 f.2)) = some sti ∧
      CaptureFromSource isOffline s ((a ++ [f]).map (fun f => Received.frame f.1 f.2)) =
        some sti1 ∧
      CaptureFromSource isOffline s ((a ++ f :: rest).map (fun f => Received.frame f.1 f.2)) =
        some st ∧
      st.log.get? a.length = some entry ∧
      ((entry = [] ∧ sti1.session.progress = sti.session.progress) ∨
        (∃ w r, entry = [w, r, Call.SetProgress ((a.length : Int) + 1)] ∧
          sti1.session.progress = (a.length : Int) + 1)) := by
  obtain ⟨sti, ei, hruni, hprogi, hlogi, hleni, _, hvi⟩ :=
    captureLoop_frames isOffline a { session := s, progress := 0, log := [] } hv
  obtain ⟨sti1, entry, hstep, _, hv1, hlog1, hentry⟩ :=
    captureFrame_total isOffline sti f.1 f.2 hvi
  obtain ⟨st2, e2, hrun2, _, hlog2, _, _, _⟩ := captureLoop_frames isOffline rest sti1 hv1
  have hpi : sti.progress = (a.length : Int) := by
    rw [hprogi]
    simp
  refine ⟨sti, sti1, st2, entry, hruni, ?_, ?_, ?_, ?_⟩
  · unfold CaptureFromSource
    rw [List.map_append, captureLoop_append, hruni]
    simp only [Option.some_bind, List.map_cons, List.map_nil, captureLoop, hstep]
  · unfold CaptureFromSource
    rw [List.map_append, captureLoop_append, hruni]
    simp only [Option.some_bind, List.map_cons, captureLoop, hstep]
    exact hrun2
  · rw [hlog2, hlog1, hlogi]
    simp only [List.nil_append, List.append_assoc, List.singleton_append]
    rw [List.get?_eq_getElem?, List.getElem?_append_right (by omega), hleni, Nat.sub_self]
    simp
  · rw [← hpi]
    exact hentry

/-- C7: the capture loop, run without cancellation on any finite sequence of
frames (in a session whose pre-allocated viewer exists), returns, and its
progress counter has then been increased by 1 for every frame, whether the
frame was discarded, dropped or routed: after the i-th frame the counter is i,
and the value passed to `SetProgress` while the i-th frame is routed is i.
That value reaches the session: while the i-th frame is handled, either no
call is made and the session's progress is left as it was, or the frame is
routed and the session's progress is i afterwards. -/
theorem progress_counts_every_frame (isOffline : List Nat → Bool) (s : CaptureSession)
    (hv : ViewerReady s) (frames : List (Packet × Time)) :
    ∃ st : Capture,
      CaptureFromSource isOffline s (frames.map (fun f => Received.frame f.1 f.2)) = some st ∧
      st.progress = frames.length ∧
      st.log.length = frames.length ∧
      (∀ i : Nat, i ≤ frames.length →
        ∃ sti : Capture,
          CaptureFromSource isOffline s
            ((frames.take i).map (fun f => Received.frame f.1 f.2)) = some sti ∧
          sti.progress = i) ∧
      (∀ (i : Nat) (e : List Call), st.log.get? i = some e →
        e = [] ∨ ∃ w r, e = [w, r, Call.SetProgress ((i : Int) + 1)]) ∧
      (∀ i : Nat, i < frames.length →
        ∃ (sti sti1 : Capture) (entry : List Call),
          CaptureFromSource isOffline s
            ((frames.take i).map (fun f => Received.frame f.1 f.2)) = some sti ∧
          CaptureFromSource isOffline s
            ((frames.take (i + 1)).map (fun f => Received.frame f.1 f.2)) = some sti1 ∧
          st.log.get? i = some entry ∧
          ((entry = [] ∧ sti1.session.progress = sti.session.progress) ∨
            (∃ w r, entry = [w, r, Call.SetProgress ((i : Int) + 1)] ∧
              sti1.session.progress = (i : Int) + 1))) := by
  obtain ⟨st, entries, hrun, hprog, hlog, hlen, hall, _⟩ :=
    captureLoop_frames isOffline frames { session := s, progress := 0, log := [] } hv
  refine ⟨st, hrun, ?_, ?_, ?_, ?_, ?_⟩
  · rw [hprog]
    simp
  · rw [hlog]
    simpa using hlen
  · intro i hi
    obtain ⟨sti, _, hruni, hprogi, _, _, _, _⟩ :=
      captureLoop_frames isOffline (frames.take i) { session := s, progress := 0, log := [] } hv
    refine ⟨sti, hruni, ?_⟩
    rw [hprogi, List.length_take, min_eq_left hi]
    simp
  · intro i e he
    rw [hlog] at he
    simp only [List.nil_append] at he
    have h := hall i e he
    simpa using h
  · intro i hi
    obtain ⟨a, f, rest, hfull, ha⟩ :
        ∃ (a : List (Packet × Time)) (f : Packet × Time) (rest : List (Packet × Time)),
          frames = a ++ f :: rest ∧ a.length = i := by
      refine ⟨frames.take i, frames.get ⟨i, hi⟩, frames.drop (i + 1), ?_, ?_⟩
      · rw [List.get_eq_getElem, ← List.drop_eq_getElem_cons hi, List.take_append_drop]
      · rw [List.length_take, min_eq_left (Nat.le_of_lt hi)]
    subst hfull
    subst ha
    obtain ⟨sti, sti1, st2, entry, hruni, hrun1, hrunall, hget, hentry⟩ :=
      captureLoop_frame_at isOffline s hv a f rest
    have hst : st2 = st := by
      have hboth := hrunall.symm.trans hrun
      exact Option.some.inj hboth
    subst hst
    have ht1 : (a ++ f :: rest).take a.length = a := List.take_left' rfl
    have ht2 : (a ++ f :: rest).take (a.length + 1) = a ++ [f] := by
      rw [show a ++ f :: rest = (a ++ [f]) ++ rest by simp]
      exact List.take_left' (by simp)
    rw [ht1, ht2]
    exact ⟨sti, sti1, entry, hruni, hrun1, hget, hentry⟩

theorem progress_counts_every_frame_witness :
    ViewerReady (NewCaptureSession "cap") ∧
      ∃ st : Capture,
        CaptureFromSource (IsOfflineMessage sampleOfflineMessageID) (NewCaptureSession "cap")
            (sampleFrames.map (fun f => Received.frame f.1 f.2)) = some st ∧
        st.progress = sampleFrames.length ∧
        st.log.length = sampleFrames.length ∧
        (∀ i : Nat, i ≤ sampleFrames.length →
          ∃ sti : Capture,
            CaptureFromSource (IsOfflineMessage sampleOfflineMessageID)
              (NewCaptureSession "cap")
              ((sampleFrames.take i).map (fun f => Received.frame f.1 f.2)) = some sti ∧
            sti.progress = i) ∧
        (∀ (i : Nat) (e : List Call), st.log.get? i = some e →
          e = [] ∨ ∃ w r, e = [w, r, Call.SetProgress ((i : Int) + 1)]) ∧
        (∀ i : Nat, i < sampleFrames.length →
          ∃ (sti sti1 : Capture) (entry : List Call),
            CaptureFromSource (IsOfflineMessage sampleOfflineMessageID)
              (NewCaptureSession "cap")
              ((sampleFrames.take i).map (fun f => Received.frame f.1 f.2)) = some sti ∧
            CaptureFromSource (IsOfflineMessage sampleOfflineMessageID)
              (NewCaptureSession "cap")
              ((sampleFrames.take (i + 1)).map (fun f => Received.frame f.1 f.2)) = some sti1 ∧
            st.log.get? i = some entry ∧
            ((entry = [] ∧ sti1.session.progress = sti.session.progress) ∨
              (∃ w r, entry = [w, r, Call.SetProgress ((i : Int) + 1)] ∧
                sti1.session.progress = (i : Int) + 1))) :=
  ⟨fun _ => by decide,
    progress_counts_every_frame (IsOfflineMessage sampleOfflineMessageID)
      (NewCaptureSession "cap") (fun _ => by decide) sampleFrames⟩

/-- The three sample frames: the discarded and the dropped frame leave the
session's progress at 0, the routed third frame sets it to 3. -/
theorem sampleFrames_session_progress :
    ((List.range 4).map (fun i =>
      (CaptureFromSource (IsOfflineMessage sampleOfflineMessageID) (NewCaptureSession "cap")
        ((sampleFrames.take i).map (fun f => Received.frame f.1 f.2))).map
        (fun st => (st.progress, st.session.progress)))) =
      [some (0, 0), some (1, 0), some (2, 0), some (3, 3)] := by
  rfl

/-- Two matched frames that the recorder cannot write. The handshake
[::ffff:10.0.0.1]:1000 -> [2001::2]:2000 opens a conversation, but its source
is an IPv4 address and its destination is not, so it does not serialize and
the capture file keeps its 24 header bytes. After a failed header write the
file is closed, and the handshake A -> B, which opens a conversation, leaves it
empty. Both frames are handed to `WritePacketToPCAP`. -/
theorem unwritable_frames_not_recorded :
    ¬ AddressesSerialize addrMapped addrV6 ∧
      (captureFrame (IsOfflineMessage sampleOfflineMessageID)
          { session := sessionRec, progress := 0, log := [] } mixedFamilyFrame sampleTime).map
        (fun st => (st.session.Conversations.length,
          st.log.map (fun e => e.head?), st.session.files.map (fun f => f.data.length))) =
        some (1, [some (Call.WritePacketToPCAP addrMapped addrV6 samplePayload)], [24]) ∧
      (captureFrame (IsOfflineMessage sampleOfflineMessageID)
          { session := sessionHeaderFailed, progress := 0, log := [] }
          (udpFrame addrA addrB samplePayload) sampleTime).map
        (fun st => (st.session.Conversations.length,
          st.log.map (fun e => e.head?),
          st.session.files.map (fun f => (f.closed, f.data.length)))) =
        some (1, [some (Call.WritePacketToPCAP addrA addrB samplePayload)], [(true, 0)]) := by
  refine ⟨?_, rfl, rfl⟩
  unfold AddressesSerialize
  decide

/-! ## Claims about teardown -/

theorem ClosePCAPWriter_pcapFile (s : CaptureSession) : s.ClosePCAPWriter.pcapFile = none := by
  unfold CaptureSession.ClosePCAPWriter
  cases h : s.pcapFile with
  | none => exact h
  | some f => rfl

theorem ClosePCAPWriter_of_none (s : CaptureSession) (h : s.pcapFile = none) :
    s.ClosePCAPWriter = s := by
  unfold CaptureSession.ClosePCAPWriter
  rw [h]

theorem ClosePCAPWriter_IsCapturing (s : CaptureSession) :
    s.ClosePCAPWriter.IsCapturing = s.IsCapturing := by
  unfold CaptureSession.ClosePCAPWriter
  cases h : s.pcapFile with
  | none => rfl
  | some f => rfl

theorem ClosePCAPWriter_cancelCalls (s : CaptureSession) :
    s.ClosePCAPWriter.cancelCalls = s.cancelCalls := by
  unfold CaptureSession.ClosePCAPWriter
  cases h : s.pcapFile with
  | none => rfl
  | some f => rfl

theorem ClosePCAPWriter_pcapWriter (s : CaptureSession)
    (h : s.pcapFile = none → s.pcapWriter = none) : s.ClosePCAPWriter.pcapWriter = none := by
  unfold CaptureSession.ClosePCAPWriter
  cases hf : s.pcapFile with
  | none => exact h hf
  | some f => rfl

theorem StopCapture_of_capturing (s : CaptureSession) (h : s.IsCapturing = true) :
    s.StopCapture =
      ({ s with IsCapturing := false, cancelCalls := s.cancelCalls + 1 } :
        CaptureSession).ClosePCAPWriter := by
  unfold CaptureSession.StopCapture
  rw [if_pos h]

theorem StopCapture_of_not_capturing (s : CaptureSession) (h : s.IsCapturing = false) :
    s.StopCapture = s := by
  unfold CaptureSession.StopCapture
  rw [if_neg (by rw [h]; exact Bool.false_ne_true)]

theorem StopCapture_IsCapturing (s : CaptureSession) : s.StopCapture.IsCapturing = false := by
  cases h : s.IsCapturing with
  | false => rw [StopCapture_of_not_capturing s h]; exact h
  | true => rw [StopCapture_of_capturing s h, ClosePCAPWriter_IsCapturing]

/-- C10 (as stated, refuted): in the session whose capture already reported
done (IsCapturing false, cancel function never invoked) two `StopCapture`
calls invoke the cancel function not once but never; and when a recorder is
opened on that session afterwards, two `StopCapture` calls leave its capture
file and writer attached and the file open. -/
theorem stop_after_done_never_cancels :
    sessionDone.IsCapturing = false ∧
      sessionDone.cancelCalls = 0 ∧
      sessionDone.StopCapture.StopCapture.cancelCalls = 0 ∧
      ((sessionDone.InitPCAPWriter true true "late.pcap").2.StopCapture.StopCapture).pcapFile =
        some 0 ∧
      ((sessionDone.InitPCAPWriter true true "late.pcap").2.StopCapture.StopCapture).pcapWriter =
        some 0 ∧
      ((sessionDone.InitPCAPWriter true true "late.pcap").2.StopCapture.StopCapture).files.map
        (fun f => (f.closed, f.closeCalls)) = [(false, 0)] := by
  exact ⟨rfl, rfl, rfl, rfl, rfl, rfl⟩

/-- C10 (amended): teardown is idempotent. For every session state, calling
`StopCapture` twice leaves the same state as calling it once, with IsCapturing
false. If the session was capturing, no capture file is attached afterwards
(and no writer, given that a writer is only ever attached together with a
file) and the cancel function has been invoked exactly once in total by the
two calls; if it was not capturing, `StopCapture` changes nothing and does not
invoke the cancel function. Likewise calling `ClosePCAPWriter` twice leaves
the same state as calling it once, with no capture file attached, and on a
session without capture file it changes nothing. -/
theorem teardown_idempotent (s : CaptureSession) :
    s.StopCapture.StopCapture = s.StopCapture ∧
      s.StopCapture.IsCapturing = false ∧
      (s.IsCapturing = true →
        s.StopCapture.pcapFile = none ∧
          ((s.pcapFile = none → s.pcapWriter = none) → s.StopCapture.pcapWriter = none) ∧
          s.StopCapture.StopCapture.cancelCalls = s.cancelCalls + 1) ∧
      (s.IsCapturing = false →
        s.StopCapture = s ∧ s.StopCapture.StopCapture.cancelCalls = s.cancelCalls) ∧
      s.ClosePCAPWriter.ClosePCAPWriter = s.ClosePCAPWriter ∧
      s.ClosePCAPWriter.pcapFile = none ∧
      (s.pcapFile = none → s.ClosePCAPWriter = s) := by
  have hidem : s.StopCapture.StopCapture = s.StopCapture :=
    StopCapture_of_not_capturing _ (StopCapture_IsCapturing s)
  refine ⟨hidem, StopCapture_IsCapturing s, ?_, ?_, ?_, ClosePCAPWriter_pcapFile s,
    ClosePCAPWriter_of_none s⟩
  · intro hcap
    rw [hidem, StopCapture_of_capturing s hcap]
    refine ⟨ClosePCAPWriter_pcapFile _, ?_, ?_⟩
    · intro hw
      exact ClosePCAPWriter_pcapWriter _ hw
    · rw [ClosePCAPWriter_cancelCalls]
  · intro hcap
    rw [hidem, StopCapture_of_not_capturing s hcap]
    exact ⟨rfl, rfl⟩
  · exact ClosePCAPWriter_of_none _ (ClosePCAPWriter_pcapFile s)

theorem teardown_idempotent_witness :
    sessionRec.IsCapturing = true ∧ sessionRec.pcapFile = some 0 ∧
      sessionRec.StopCapture.files.map (fun f => (f.closed, f.closeCalls)) = [(true, 1)] ∧
      (sessionRec.StopCapture.StopCapture = sessionRec.StopCapture ∧
        sessionRec.StopCapture.IsCapturing = false ∧
        (sessionRec.IsCapturing = true →
          sessionRec.StopCapture.pcapFile = none ∧
            ((sessionRec.pcapFile = none → sessionRec.pcapWriter = none) →
              sessionRec.StopCapture.pcapWriter = none) ∧
            sessionRec.StopCapture.StopCapture.cancelCalls = sessionRec.cancelCalls + 1) ∧
        (sessionRec.IsCapturing = false →
          sessionRec.StopCapture = sessionRec ∧
            sessionRec.StopCapture.StopCapture.cancelCalls = sessionRec.cancelCalls) ∧
        sessionRec.ClosePCAPWriter.ClosePCAPWriter = sessionRec.ClosePCAPWriter ∧
        sessionRec.ClosePCAPWriter.pcapFile = none ∧
        (sessionRec.pcapFile = none → sessionRec.ClosePCAPWriter = sessionRec)) :=
  ⟨rfl, rfl, rfl, teardown_idempotent sessionRec⟩

theorem length_four (l : List Nat) (h : l.length = 4) : ∃ a b c d, l = [a, b, c, d] := by
  match l, h with
  | [a, b, c, d], _ => exact ⟨a, b, c, d, rfl⟩

theorem InitPCAPWriter_ok (s : CaptureSession) (filename : String) :
    (s.InitPCAPWriter true true filename).1 = none ∧
      (s.InitPCAPWriter true true filename).2.pcapWriter = some s.files.length ∧
      (s.InitPCAPWriter true true filename).2.pcapFile = some s.files.length ∧
      (s.InitPCAPWriter true true filename).2.files.get? s.files.length =
        some
          { name := filename
            data := fileHeader 65536 LinkTypeEthernet
            closed := false
            closeCalls := 0 } := by
  unfold CaptureSession.InitPCAPWriter fileWrite
  simp

theorem relayStep_proxyWriter (addrString : UDPAddr → String) (r : DivertRelay)
    (e : RelayEvent) : (relayStep addrString r e).proxyWriter = r.proxyWriter := by
  cases e with
  | clientOutput p => rfl
  | serverOutput p => rfl
  | recv ifIdx subIfIdx src dst udpPayload now =>
    simp only [relayStep]
    by_cases h : r.producerRunning = true
    · rw [if_pos h]
      rfl
    · rw [if_neg h]
  | recvFail => rfl
  | pop =>
    simp only [relayStep, consumerPop]
    cases r.packetChan with
    | nil => rfl
    | cons a rest =>
      by_cases h : a.Layers.Root.FromClient = true
      · simp only [h, if_true]
      · simp only [h, if_false, Bool.false_eq_true]
  | done => rfl

theorem relayStep_sent_other (addrString : UDPAddr → String) (r : DivertRelay)
    (e : RelayEvent) (hc : ∀ p, e ≠ RelayEvent.clientOutput p)
    (hs : ∀ p, e ≠ RelayEvent.serverOutput p) :
    (relayStep addrString r e).sent = r.sent := by
  cases e with
  | clientOutput p => exact absurd rfl (hc p)
  | serverOutput p => exact absurd rfl (hs p)
  | recv ifIdx subIfIdx src dst udpPayload now =>
    simp only [relayStep]
    by_cases h : r.producerRunning = true
    · rw [if_pos h]
      rfl
    · rw [if_neg h]
  | recvFail => rfl
  | pop =>
    simp only [relayStep, consumerPop]
    cases r.packetChan with
    | nil => rfl
    | cons a rest =>
      by_cases h : a.Layers.Root.FromClient = true
      · simp only [h, if_true]
      · simp only [h, if_false, Bool.false_eq_true]
  | done => rfl

theorem relayRun_sent (addrString : UDPAddr → String) (events : List RelayEvent) :
    ∀ r : DivertRelay,
      (relayRun addrString r events).proxyWriter = r.proxyWriter ∧
      (relayRun addrString r events).sent.map (fun c => (c.payload, c.src, c.dst, c.outbound)) =
        r.sent.map (fun c => (c.payload, c.src, c.dst, c.outbound)) ++
          (emissions events).map (fun e =>
            if e.1 then (e.2, r.proxyWriter.ServerAddr, r.proxyWriter.ClientAddr, false)
            else (e.2, r.proxyWriter.ClientAddr, r.proxyWriter.ServerAddr, true)) := by
  induction events with
  | nil =>
    intro r
    simp [relayRun, emissions]
  | cons e rest ih =>
    intro r
    cases e with
    | clientOutput p =>
      have h := ih (relayStep addrString r (RelayEvent.clientOutput p))
      rw [relayStep_proxyWriter] at h
      simp only [relayRun, emissions, List.map_cons]
      refine ⟨h.1, ?_⟩
      rw [h.2]
      simp [relayStep, clientHalfOutput]
    | serverOutput p =>
      have h := ih (relayStep addrString r (RelayEvent.serverOutput p))
      rw [relayStep_proxyWriter] at h
      simp only [relayRun, emissions, List.map_cons]
      refine ⟨h.1, ?_⟩
      rw [h.2]
      simp [relayStep, serverHalfOutput]
    | recv ifIdx subIfIdx src dst udpPayload now =>
      have h := ih (relayStep addrString r (RelayEvent.recv ifIdx subIfIdx src dst udpPayload now))
      rw [relayStep_proxyWriter, relayStep_sent_other addrString r _ (fun _ hh => by cases hh)
        (fun _ hh => by cases hh)] at h
      simp only [relayRun, emissions]
      exact h
    | recvFail =>
      have h := ih (relayStep addrString r RelayEvent.recvFail)
      rw [relayStep_proxyWriter, relayStep_sent_other addrString r _ (fun _ hh => by cases hh)
        (fun _ hh => by cases hh)] at h
      simp only [relayRun, emissions]
      exact h
    | pop =>
      have h := ih (relayStep addrString r RelayEvent.pop)
      rw [relayStep_proxyWriter, relayStep_sent_other addrString r _ (fun _ hh => by cases hh)
        (fun _ hh => by cases hh)] at h
      simp only [relayRun, emissions]
      exact h
    | done =>
      simp only [relayRun, emissions, List.map_nil, List.append_nil]
      exact ⟨rfl, rfl⟩

/-- C11: the two injection paths of the live relay are never swapped. For every
client and server address, every first datagram and every course of events of
a relay that `CaptureWithDivertedPacket` opened, the `SendUDP` injections are,
in order, exactly the datagrams that the two halves emitted on their outputs:
one emitted by the client half is injected with source = the server address
and destination = the client address (flag false), one emitted by the server
half with source = the client address and destination = the server address
(flag true), each with the emitted payload unchanged. -/
theorem injection_paths_never_swapped (addrString : UDPAddr → String)
    (clientAddr serverAddr : UDPAddr) (payload : List Nat) (ifIdx subIfIdx : Nat)
    (events : List RelayEvent) :
    ∃ r : DivertRelay,
      CaptureWithDivertedPacket addrString true clientAddr serverAddr payload ifIdx subIfIdx
        events = some r ∧
      r.proxyWriter.ClientAddr = clientAddr ∧ r.proxyWriter.ServerAddr = serverAddr ∧
      r.sent.map (fun c => (c.payload, c.src, c.dst, c.outbound)) =
        (emissions events).map (fun e =>
          if e.1 then (e.2, serverAddr, clientAddr, false)
          else (e.2, clientAddr, serverAddr, true)) ∧
      (∀ p : List Nat,
        (relayStep addrString r (RelayEvent.clientOutput p)).sent =
          r.sent ++ [{ payload := p, src := serverAddr, dst := clientAddr, outbound := false,
                       ifIdx := r.ifIdx, subIfIdx := r.subIfIdx }]) ∧
      (∀ p : List Nat,
        (relayStep addrString r (RelayEvent.serverOutput p)).sent =
          r.sent ++ [{ payload := p, src := clientAddr, dst := serverAddr, outbound := true,
                       ifIdx := r.ifIdx, subIfIdx := r.subIfIdx }]) := by
  have h := relayRun_sent addrString events
    (startRelay clientAddr serverAddr payload ifIdx subIfIdx)
  have hc : (relayRun addrString (startRelay clientAddr serverAddr payload ifIdx subIfIdx)
      events).proxyWriter.ClientAddr = clientAddr := by
    rw [h.1]
    rfl
  have hs : (relayRun addrString (startRelay clientAddr serverAddr payload ifIdx subIfIdx)
      events).proxyWriter.ServerAddr = serverAddr := by
    rw [h.1]
    rfl
  refine ⟨_, by simp only [CaptureWithDivertedPacket, if_true], hc, hs, ?_, ?_, ?_⟩
  · rw [h.2]
    simp [startRelay]
  · intro p
    simp only [relayStep, clientHalfOutput, hc, hs]
  · intro p
    simp only [relayStep, serverHalfOutput, hc, hs]

/-! ## Claims about the discovery filter -/

theorem intercalate_go_joinAnd (l : List String) :
    ∀ acc : String, String.intercalate.go acc " and " l = acc ++ joinAnd l := by
  induction l with
  | nil =>
    intro acc
    simp [String.intercalate.go, joinAnd]
  | cons a rest ih =>
    intro acc
    rw [String.intercalate.go, ih, joinAnd]
    simp only [String.append_assoc]

theorem genPayloadFilterLoop_joinAnd (offset : Int) (bytes : List Nat) :
    ∀ (i : Nat) (build : String),
      genPayloadFilterLoop offset i bytes build =
        build ++ joinAnd ((byteTerms offset i bytes).map FilterTerm.render) := by
  induction bytes with
  | nil =>
    intro i build
    simp [genPayloadFilterLoop, byteTerms, joinAnd]
  | cons b rest ih =>
    intro i build
    have hlead : " and udp.Payload[" = " and " ++ "udp.Payload[" := by decide
    rw [genPayloadFilterLoop, ih, byteTerms, List.map_cons, joinAnd, FilterTerm.render,
      hlead, add_comm (i : Int) offset]
    simp only [String.append_assoc]

theorem byteTerms_range (offset : Int) (bytes : List Nat) :
    ∀ i : Nat,
      byteTerms offset i bytes =
        (List.range bytes.length).map
          (fun (j : Nat) => FilterTerm.payloadByteEq (offset + ((i + j : Nat) : Int))
            (bytes.getD j 0)) := by
  induction bytes with
  | nil =>
    intro i
    simp [byteTerms]
  | cons b rest ih =>
    intro i
    rw [byteTerms, ih, List.length_cons, List.range_succ_eq_map, List.map_cons, List.map_map]
    simp only [Nat.add_zero, List.getD_cons_zero, Function.comp_def, List.getD_cons_succ]
    congr 1
    apply List.map_congr_left
    intro j _
    have : i + 1 + j = i + (j + 1) := by omega
    rw [this]

theorem payloadFilterTerms_eq (offset : Int) (bytes : List Nat) :
    payloadFilterTerms offset bytes =
      FilterTerm.payloadLengthGE (offset + (bytes.length : Int)) :: byteTerms offset 0 bytes := by
  unfold payloadFilterTerms
  rw [byteTerms_range]
  simp

theorem genPayloadFilter_eq_conjunction (offset : Int) (bytes : List Nat) :
    genPayloadFilter offset bytes = conjunction (payloadFilterTerms offset bytes) := by
  unfold genPayloadFilter conjunction
  rw [payloadFilterTerms_eq, List.map_cons, String.intercalate, intercalate_go_joinAnd,
    genPayloadFilterLoop_joinAnd, FilterTerm.render]

theorem byteTerms_all (payload : List Nat) (n : Nat) (bytes : List Nat) :
    ∀ i : Nat,
      (byteTerms (n : Int) i bytes).all (FilterTerm.holds payload) = true ↔
        bytes <+: payload.drop (n + i) := by
  induction bytes with
  | nil =>
    intro i
    simp [byteTerms]
  | cons b rest ih =>
    intro i
    have hidx : ((n : Int) + (i : Int)).toNat = n + i := by omega
    have hnn : (0 : Int) ≤ (n : Int) + (i : Int) := by omega
    rw [byteTerms, List.all_cons, Bool.and_eq_true, ih (i + 1)]
    simp only [FilterTerm.holds, hidx, hnn, decide_True, Bool.true_and, beq_iff_eq]
    have hhead : payload.get? (n + i) = (payload.drop (n + i)).head? := by
      rw [List.head?_drop, List.get?_eq_getElem?]
    have htail : payload.drop (n + (i + 1)) = (payload.drop (n + i)).tail := by
      rw [List.tail_drop]
      rfl
    rw [hhead, htail]
    cases payload.drop (n + i) with
    | nil => simp
    | cons a tl =>
      simp only [List.head?_cons, Option.some.injEq, List.tail_cons, List.cons_prefix_cons]
      constructor
      · rintro ⟨h1, h2⟩
        exact ⟨h1.symm, h2⟩
      · rintro ⟨h1, h2⟩
        exact ⟨h1.symm, h2⟩

theorem satisfies_payloadFilterTerms (payload : List Nat) (n : Nat) (bytes : List Nat) :
    satisfies payload (payloadFilterTerms (n : Int) bytes) = true ↔
      n + bytes.length ≤ payload.length ∧ (payload.drop n).take bytes.length = bytes := by
  unfold satisfies
  rw [payloadFilterTerms_eq, List.all_cons, Bool.and_eq_true, byteTerms_all]
  simp only [FilterTerm.holds, decide_eq_true_eq, Nat.add_zero]
  constructor
  · rintro ⟨h1, h2⟩
    refine ⟨by omega, ?_⟩
    exact (List.prefix_iff_eq_take.mp h2).symm
  · rintro ⟨h1, h2⟩
    refine ⟨by omega, ?_⟩
    rw [List.prefix_iff_eq_take]
    exact h2.symm

theorem satisfies_discovery (payload sig : List Nat) :
    satisfies payload (payloadFilterTerms 0 (0x7B :: sig)) = true ↔
      payload.head? = some 0x7B ∧
        (1 + sig.length ≤ payload.length ∧ (payload.drop 1).take sig.length = sig) := by
  have h := satisfies_payloadFilterTerms payload 0 (0x7B :: sig)
  simp only [Nat.cast_zero, List.length_cons, List.drop_zero, Nat.zero_add] at h
  rw [h]
  cases payload with
  | nil => simp
  | cons a tl =>
    simp only [List.length_cons, List.take_succ_cons, List.cons.injEq, List.head?_cons,
      Option.some.injEq, List.drop_succ_cons, List.drop_zero]
    constructor
    · rintro ⟨h1, h2, h3⟩
      exact ⟨h2, by omega, h3⟩
    · rintro ⟨h1, h2, h3⟩
      exact ⟨by omega, h1, h3⟩

theorem IsOfflineMessage_iff (sig q : List Nat) :
    IsOfflineMessage sig q = true ↔
      (1 + sig.length ≤ q.length ∧ (q.drop 1).take sig.length = sig) := by
  unfold IsOfflineMessage
  rw [Bool.and_eq_true, decide_eq_true_iff, beq_iff_eq]

/-- C12: for every offset >= 0 and every byte sequence `b` of length N,
`genPayloadFilter(offset, b)` is the text of the conjunction of exactly N + 1
terms, the length bound `udp.PayloadLength >= offset+N` followed for
i = 0 .. N-1, in order, by `udp.Payload[offset+i] == b[i]` (the byte in two
upper-case hexadecimal digits); a UDP payload satisfies these terms if and only
if its length is at least offset+N and its bytes [offset..offset+N) equal `b`.
The session-discovery filter is `genPayloadFilter(0, 0x7B followed by the
offline message signature)`, and a payload satisfies it exactly when it passes
the two tests of `ConversationFor` (first byte 0x7B, `peer.IsOfflineMessage`),
that is, exactly when `ConversationFor` opens a conversation for an address
pair that matches no existing one. The classifier `peer.IsOfflineMessage` is
any function that accepts exactly the payloads carrying the signature `sig`
right after their first byte. -/
theorem discovery_filter_is_signature_rule (offset : Int) (h0 : 0 ≤ offset) (b : List Nat)
    (sig : List Nat) (isOffline : List Nat → Bool)
    (hoff : ∀ q : List Nat, isOffline q = true ↔
      (1 + sig.length ≤ q.length ∧ (q.drop 1).take sig.length = sig)) :
    genPayloadFilter offset b = conjunction (payloadFilterTerms offset b) ∧
      (payloadFilterTerms offset b).length = b.length + 1 ∧
      (payloadFilterTerms offset b).head? =
        some (FilterTerm.payloadLengthGE (offset + (b.length : Int))) ∧
      (∀ i : Nat, i < b.length →
        (payloadFilterTerms offset b).get? (i + 1) =
          some (FilterTerm.payloadByteEq (offset + (i : Int)) (b.getD i 0)) ∧
        (FilterTerm.payloadByteEq (offset + (i : Int)) (b.getD i 0)).render =
          "udp.Payload[" ++ toString (offset + (i : Int)) ++ "] == 0x" ++ hex2 (b.getD i 0) ∧
        (hex2 (b.getD i 0)).length = 2) ∧
      (∀ payload : List Nat,
        satisfies payload (payloadFilterTerms offset b) = true ↔
          (offset + (b.length : Int) ≤ (payload.length : Int) ∧
            (payload.drop offset.toNat).take b.length = b)) ∧
      discoveryFilter sig = conjunction (payloadFilterTerms 0 (0x7B :: sig)) ∧
      (∀ payload : List Nat,
        satisfies payload (payloadFilterTerms 0 (0x7B :: sig)) = true ↔
          (payload.head? = some 0x7B ∧ isOffline payload = true)) ∧
      (∀ (s : CaptureSession) (source dest : UDPAddr) (payload : List Nat),
        (∀ c ∈ s.Conversations,
          ¬ (AddressEq source c.Client = true ∧ AddressEq dest c.Server = true) ∧
            ¬ (AddressEq source c.Server = true ∧ AddressEq dest c.Client = true)) →
        ViewerReady s →
        ((∃ (c : Conversation) (s1 : CaptureSession),
            s.ConversationFor isOffline source dest payload = some (some c, s1)) ↔
          satisfies payload (payloadFilterTerms 0 (0x7B :: sig)) = true)) := by
  obtain ⟨n, rfl⟩ := Int.eq_ofNat_of_zero_le h0
  have hdisc : ∀ payload : List Nat,
      satisfies payload (payloadFilterTerms 0 (0x7B :: sig)) = true ↔
        (payload.head? = some 0x7B ∧ isOffline payload = true) := by
    intro payload
    rw [satisfies_discovery, hoff]
  refine ⟨genPayloadFilter_eq_conjunction _ _, ?_, rfl, ?_, ?_, ?_, hdisc, ?_⟩
  · simp [payloadFilterTerms]
  · intro i hi
    refine ⟨?_, rfl, rfl⟩
    unfold payloadFilterTerms
    rw [List.get?_cons_succ, List.get?_eq_getElem?, List.getElem?_map,
      List.getElem?_range hi]
    rfl
  · intro payload
    rw [satisfies_payloadFilterTerms]
    simp only [Int.toNat_ofNat]
    constructor
    · rintro ⟨h1, h2⟩
      exact ⟨by omega, h2⟩
    · rintro ⟨h1, h2⟩
      exact ⟨by omega, h2⟩
  · exact genPayloadFilter_eq_conjunction 0 (0x7B :: sig)
  · intro s source dest payload hno hv
    have hsc := (no_match_iff_scan_none _ _ _).mpr hno
    rw [hdisc]
    constructor
    · rintro ⟨c, s1, hcall⟩
      by_contra hnot
      have hp : payload.head? ≠ some 0x7B ∨ isOffline payload = false := by
        by_cases h7 : payload.head? = some 0x7B
        · right
          cases hval : isOffline payload with
          | false => rfl
          | true => exact absurd ⟨h7, hval⟩ hnot
        · exact Or.inl h7
      rw [ConversationFor_reject isOffline s source dest payload hsc hp] at hcall
      cases hcall
    · rintro ⟨h7, ho⟩
      obtain ⟨c, s1, hcall, _⟩ :=
        ConversationFor_open_result isOffline s source dest payload hsc h7 ho hv
      exact ⟨c, s1, hcall⟩

theorem discovery_filter_is_signature_rule_witness :
    genPayloadFilter 3 [0x01, 0xAB] =
        "udp.PayloadLength >= 5 and udp.Payload[3] == 0x01 and udp.Payload[4] == 0xAB" ∧
      satisfies [9, 9, 9, 0x01, 0xAB, 7] (payloadFilterTerms 3 [0x01, 0xAB]) = true ∧
      satisfies [9, 9, 9, 0x01, 0xAC, 7] (payloadFilterTerms 3 [0x01, 0xAB]) = false ∧
      satisfies samplePayload (payloadFilterTerms 0 (0x7B :: sampleOfflineMessageID)) = true ∧
      (0 : Int) ≤ 3 ∧
      (∀ q : List Nat, IsOfflineMessage sampleOfflineMessageID q = true ↔
        (1 + sampleOfflineMessageID.length ≤ q.length ∧
          (q.drop 1).take sampleOfflineMessageID.length = sampleOfflineMessageID)) ∧
      (genPayloadFilter 3 [0x01, 0xAB] = conjunction (payloadFilterTerms 3 [0x01, 0xAB]) ∧
        (payloadFilterTerms 3 [0x01, 0xAB]).length = [0x01, 0xAB].length + 1 ∧
        (∀ payload : List Nat,
          satisfies payload (payloadFilterTerms 3 [0x01, 0xAB]) = true ↔
            ((3 : Int) + (([0x01, 0xAB] : List Nat).length : Int) ≤ (payload.length : Int) ∧
              (payload.drop (3 : Int).toNat).take ([0x01, 0xAB] : List Nat).length =
                [0x01, 0xAB])) ∧
        discoveryFilter sampleOfflineMessageID =
          conjunction (payloadFilterTerms 0 (0x7B :: sampleOfflineMessageID)) ∧
        (∀ payload : List Nat,
          satisfies payload (payloadFilterTerms 0 (0x7B :: sampleOfflineMessageID)) = true ↔
            (payload.head? = some 0x7B ∧
              IsOfflineMessage sampleOfflineMessageID payload = true))) :=
  have h := discovery_filter_is_signature_rule 3 (by decide) [0x01, 0xAB]
    sampleOfflineMessageID (IsOfflineMessage sampleOfflineMessageID)
    (IsOfflineMessage_iff sampleOfflineMessageID)
  ⟨by decide, by decide, by decide, by decide, by decide,
    IsOfflineMessage_iff sampleOfflineMessageID,
    h.1, h.2.1, h.2.2.2.2.1, h.2.2.2.2.2.1, h.2.2.2.2.2.2.1⟩

/-! ## Claims about the release of the capture file -/

theorem FilesSound_congr (s s1 : CaptureSession) (hf : s1.files = s.files)
    (hp : s1.pcapFile = s.pcapFile) (h : FilesSound s) : FilesSound s1 := by
  unfold FilesSound at h ⊢
  rw [hf, hp]
  exact h

theorem fileClose_length (files : List OsFile) (h : Nat) :
    (fileClose files h).length = files.length := by
  unfold fileClose
  cases files.get? h with
  | none => rfl
  | some f => simp

theorem fileClose_get_ne (files : List OsFile) (h i : Nat) (hne : i ≠ h) :
    (fileClose files h).get? i = files.get? i := by
  unfold fileClose
  cases files.get? h with
  | none => rfl
  | some f =>
    simp only [List.get?_eq_getElem?]
    rw [List.getElem?_set_ne (Ne.symm hne)]

theorem fileClose_get_self (files : List OsFile) (h : Nat) (f : OsFile)
    (hf : files.get? h = some f) :
    (fileClose files h).get? h =
      some { f with closed := true, closeCalls := f.closeCalls + 1 } := by
  have hlt : h < files.length := by
    rw [List.get?_eq_some] at hf
    exact hf.1
  unfold fileClose
  rw [hf]
  simp only [List.get?_eq_getElem?]
  rw [List.getElem?_set_self hlt]

theorem fileWrite_some (files files1 : List OsFile) (h : Nat) (bytes : List Nat)
    (hw : fileWrite files h bytes = some files1) :
    files1.length = files.length ∧
      ∀ (i : Nat) (f1 : OsFile), files1.get? i = some f1 →
        ∃ f : OsFile, files.get? i = some f ∧ f1.closed = f.closed ∧
          f1.closeCalls = f.closeCalls := by
  unfold fileWrite at hw
  cases hf : files.get? h with
  | none => rw [hf] at hw; cases hw
  | some f =>
    rw [hf] at hw
    by_cases hc : f.closed = true
    · simp [hc] at hw
    · simp only [hc, Bool.false_eq_true, if_false, Option.some.injEq] at hw
      subst hw
      refine ⟨by simp, ?_⟩
      intro i f1 hi
      by_cases hih : i = h
      · subst hih
        have hlt : i < files.length := by
          rw [List.get?_eq_some] at hf
          exact hf.1
        simp only [List.get?_eq_getElem?] at hi
        rw [List.getElem?_set_self hlt] at hi
        cases hi
        have hcf : f.closed = false := by simpa using hc
        exact ⟨f, hf, hcf.symm, rfl⟩
      · simp only [List.get?_eq_getElem?] at hi
        rw [List.getElem?_set_ne (Ne.symm hih)] at hi
        refine ⟨f1, ?_, rfl, rfl⟩
        rw [List.get?_eq_getElem?]
        exact hi

theorem ClosePCAPWriter_FilesSound (s : CaptureSession) (h : FilesSound s) :
    FilesSound s.ClosePCAPWriter := by
  unfold CaptureSession.ClosePCAPWriter
  cases hp : s.pcapFile with
  | none => exact h
  | some file =>
    unfold FilesSound at h ⊢
    obtain ⟨hfiles, hheld⟩ := h
    refine ⟨?_, ?_⟩
    · intro i f hi
      refine ⟨?_, fun hcon => by cases hcon⟩
      by_cases hif : i = file
      · subst hif
        obtain ⟨g, hg⟩ : ∃ g, s.files.get? i = some g := by
          have hlt := hheld i hp
          exact ⟨s.files.get ⟨i, hlt⟩, List.get?_eq_get hlt⟩
        have hself := fileClose_get_self s.files i g hg
        simp only at hi
        rw [hself] at hi
        cases hi
        have := (hfiles i g hg).2 hp
        simp only
        omega
      · simp only at hi
        rw [fileClose_get_ne _ _ _ hif] at hi
        exact (hfiles i f hi).1
    · intro i hcon
      cases hcon

theorem WritePacketToPCAP_FilesSound (now : Time) (s : CaptureSession) (src dst : UDPAddr)
    (payload : List Nat) (h : FilesSound s) :
    FilesSound (s.WritePacketToPCAP now src dst payload) := by
  unfold CaptureSession.WritePacketToPCAP CaptureSession.WriteToPCAP
  cases hw : s.pcapWriter with
  | none => exact h
  | some w =>
    simp only
    cases hf : pcapFrame src dst payload with
    | none => exact h
    | some bytes =>
      simp only
      cases hfw : fileWrite s.files w (packetRecord now bytes) with
      | none => exact h
      | some files1 =>
        obtain ⟨hlen, hget⟩ := fileWrite_some _ _ _ _ hfw
        unfold FilesSound at h ⊢
        obtain ⟨hfiles, hheld⟩ := h
        refine ⟨?_, ?_⟩
        · intro i f1 hi
          obtain ⟨f, hfi, hc, hcc⟩ := hget i f1 hi
          have := hfiles i f hfi
          rw [hc, hcc]
          exact this
        · intro i hi
          simp only at hi ⊢
          rw [hlen]
          exact hheld i hi

theorem InitPCAPWriter_FilesSound (createOk headerOk : Bool) (s : CaptureSession)
    (filename : String) (hok : ¬ (createOk = true ∧ headerOk = false)) (h : FilesSound s) :
    FilesSound (s.InitPCAPWriter createOk headerOk filename).2 := by
  cases createOk with
  | false =>
    unfold CaptureSession.InitPCAPWriter
    exact h
  | true =>
    cases headerOk with
    | false => exact absurd ⟨rfl, rfl⟩ hok
    | true =>
      obtain ⟨_, _, hfile, hget⟩ := InitPCAPWriter_ok s filename
      have hfiles1 : (s.InitPCAPWriter true true filename).2.files =
          s.files ++ [{ name := filename, data := fileHeader 65536 LinkTypeEthernet,
                        closed := false, closeCalls := 0 }] := by
        unfold CaptureSession.InitPCAPWriter fileWrite
        simp
      unfold FilesSound at h ⊢
      obtain ⟨hfiles, hheld⟩ := h
      rw [hfile, hfiles1]
      refine ⟨?_, ?_⟩
      · intro i f hi
        by_cases hlt : i < s.files.length
        · rw [List.get?_eq_getElem?, List.getElem?_append_left hlt] at hi
          refine ⟨(hfiles i f (by rw [List.get?_eq_getElem?]; exact hi)).1, ?_⟩
          intro hcon
          cases hcon
          omega
        · have hge : s.files.length ≤ i := by omega
          rw [List.get?_eq_getElem?, List.getElem?_append_right hge] at hi
          cases hk : i - s.files.length with
          | zero =>
            rw [hk] at hi
            simp only [List.getElem?_cons_zero, Option.some.injEq] at hi
            subst hi
            exact ⟨by simp, fun _ => ⟨rfl, rfl⟩⟩
          | succ k =>
            rw [hk] at hi
            simp at hi
      · intro i hi
        cases hi
        simp

theorem StopCapture_FilesSound (s : CaptureSession) (h : FilesSound s) :
    FilesSound s.StopCapture := by
  cases hc : s.IsCapturing with
  | false =>
    rw [StopCapture_of_not_capturing s hc]
    exact h
  | true =>
    rw [StopCapture_of_capturing s hc]
    exact ClosePCAPWriter_FilesSound _ (FilesSound_congr s _ rfl rfl h)

theorem runIdleTask_FilesSound (s : CaptureSession) (task : IdleTask) (h : FilesSound s) :
    FilesSound (s.runIdleTask task) := by
  cases task with
  | newViewer title conv => exact h
  | reportDone =>
    unfold CaptureSession.runIdleTask
    exact ClosePCAPWriter_FilesSound _ (FilesSound_congr s _ rfl rfl h)

theorem applyOp_FilesSound (s : CaptureSession) (op : SessionOp)
    (hop : ∀ filename : String, op ≠ SessionOp.InitPCAPWriter true false filename)
    (h : FilesSound s) : FilesSound (s.applyOp op) := by
  cases op with
  | InitPCAPWriter createOk headerOk filename =>
    refine InitPCAPWriter_FilesSound createOk headerOk s filename ?_ h
    rintro ⟨h1, h2⟩
    subst h1 h2
    exact hop filename rfl
  | WritePacketToPCAP now src dst payload =>
    exact WritePacketToPCAP_FilesSound now s src dst payload h
  | ClosePCAPWriter => exact ClosePCAPWriter_FilesSound s h
  | StopCapture => exact StopCapture_FilesSound s h
  | ReportDone => exact FilesSound_congr s _ rfl rfl h
  | runIdle =>
    unfold CaptureSession.applyOp
    cases hq : s.idleQueue with
    | nil => exact h
    | cons task rest =>
      exact runIdleTask_FilesSound _ task (FilesSound_congr s _ rfl rfl h)

/-- Without a failing header write, no sequence of recorder and teardown calls
closes a capture file a second time, and a file that the session holds is
open: the double close below has no other cause than the header failure. -/
theorem applyOps_FilesSound (ops : List SessionOp) (hops : NoHeaderFailure ops) :
    ∀ s : CaptureSession, FilesSound s → FilesSound (s.applyOps ops) := by
  induction ops with
  | nil =>
    intro s h
    exact h
  | cons op rest ih =>
    intro s h
    have hop : ∀ filename : String, op ≠ SessionOp.InitPCAPWriter true false filename := by
      intro filename hcon
      exact hops filename (by rw [hcon]; exact List.mem_cons_self _ _)
    have hrest : NoHeaderFailure rest := fun filename hm =>
      hops filename (List.mem_cons_of_mem _ hm)
    exact ih hrest _ (applyOp_FilesSound s op hop h)

/-- A stop of a capturing session that holds an open file closes that file,
for the first time, and leaves the session without file and writer. -/
theorem StopCapture_releases_held_file (s : CaptureSession) (i : Nat) (h : FilesSound s)
    (hc : s.IsCapturing = true) (hp : s.pcapFile = some i) :
    s.StopCapture.pcapFile = none ∧ s.StopCapture.pcapWriter = none ∧
      ∃ f : OsFile, s.StopCapture.files.get? i = some f ∧ f.closed = true ∧
        f.closeCalls = 1 := by
  obtain ⟨hfiles, hheld⟩ := h
  have hlt := hheld i hp
  have hg : s.files.get? i = some (s.files.get ⟨i, hlt⟩) := List.get?_eq_get hlt
  have h0 := (hfiles i _ hg).2 hp
  rw [StopCapture_of_capturing s hc]
  unfold CaptureSession.ClosePCAPWriter
  rw [show ({ s with IsCapturing := false, cancelCalls := s.cancelCalls + 1 } :
    CaptureSession).pcapFile = some i from hp]
  refine ⟨rfl, rfl, _, fileClose_get_self s.files i _ hg, rfl, ?_⟩
  simp only
  omega

/-- A second `InitPCAPWriter` on a session that already holds a file replaces
the held file without closing it: the stop that follows closes the second file
only. -/
theorem second_init_leaves_first_file_open :
    (((NewCaptureSession "cap").applyOps
        [SessionOp.InitPCAPWriter true true "a.pcap", SessionOp.InitPCAPWriter true true "b.pcap",
          SessionOp.StopCapture]).files.map (fun f => (f.name, f.closed, f.closeCalls))) =
      [("a.pcap", false, 0), ("b.pcap", true, 1)] := by
  rfl

/-- C13 (the code at the failing input): in a new session, `InitPCAPWriter`
whose header write fails returns its error after closing the file it created,
but the session still holds that file and its writer; the `StopCapture` (or
`ClosePCAPWriter`) that follows calls `Close` on the same file a second time.
A `WritePacketToPCAP` after the failure is not skipped either: it finds a
writer, and its write fails on the closed file. -/
theorem header_failure_closes_file_twice :
    ((NewCaptureSession "cap").InitPCAPWriter true false "out.pcap").1 =
        some "failed to write PCAP header" ∧
      ((NewCaptureSession "cap").applyOps
          [SessionOp.InitPCAPWriter true false "out.pcap"]).pcapFile = some 0 ∧
      ((NewCaptureSession "cap").applyOps
          [SessionOp.InitPCAPWriter true false "out.pcap"]).pcapWriter = some 0 ∧
      ((NewCaptureSession "cap").applyOps
          [SessionOp.InitPCAPWriter true false "out.pcap"]).files =
        [{ name := "out.pcap", data := [], closed := true, closeCalls := 1 }] ∧
      ((NewCaptureSession "cap").applyOps
          [SessionOp.InitPCAPWriter true false "out.pcap", SessionOp.StopCapture]).files =
        [{ name := "out.pcap", data := [], closed := true, closeCalls := 2 }] ∧
      ((NewCaptureSession "cap").applyOps
          [SessionOp.InitPCAPWriter true false "out.pcap",
            SessionOp.StopCapture]).IsCapturing = false ∧
      ((NewCaptureSession "cap").applyOps
          [SessionOp.InitPCAPWriter true false "out.pcap", SessionOp.ClosePCAPWriter]).files =
        [{ name := "out.pcap", data := [], closed := true, closeCalls := 2 }] ∧
      (((NewCaptureSession "cap").applyOps
          [SessionOp.InitPCAPWriter true false "out.pcap"]).WriteToPCAP sampleTime addrA addrB
            samplePayload).1 = some "write failed" := by
  exact ⟨rfl, rfl, rfl, rfl, rfl, rfl, rfl, rfl⟩

end RaknetDissector
